import Mathlib

/-! NAT-traversal rendezvous protocol: codec, coordinator and client.

A shallow embedding of `src/common/protocol.hpp`,
`src/rendezvous/rendezvous_server.cpp` and `src/p2p/p2p_client.cpp`.

Conventions of the embedding:

* a `std::string` is a list of characters (`Str`); every operation the program
  applies to strings (`find`, `substr`, `==`, `<`, `empty`, concatenation) works
  element by element, so the list model follows the code step by step;
* a `uint16_t` is a natural number, reduced modulo `2^16` where the code casts;
* a function that can throw returns `Except Exception _`;
* a socket is the log of the `sendto` calls made on it, and the transport is an
  oracle telling, for each call, whether it succeeds or throws.
-/

namespace network

/-- The contents of a `std::string`. -/
abbrev Str := List Char

/-- The exceptions the program can meet: `std::runtime_error` with its message, and
the two `std::logic_error`s thrown by `std::stoi`. -/
inductive Exception where
  | runtime_error (what : String)
  | invalid_argument
  | out_of_range
  deriving DecidableEq, Repr

deriving instance DecidableEq for Except

/-- The enumeration `Command` of `protocol.hpp`. -/
inductive Command where
  | REGISTER
  | PEER_INFO
  | HOLE_PUNCH
  | MESSAGE
  | ECHO
  | PING
  | PONG
  | QUIT
  | ERROR
  | UNKNOWN
  deriving DecidableEq, Repr

/-! ## Standard-library functions used by the program -/

/-- The call `s.find(c)` of `std::string`: the index of the first occurrence of `c`,
`none` standing for `npos`. -/
def find (c : Char) : Str → Option Nat
  | [] => none
  | x :: xs => if x = c then some 0 else (find c xs).map (· + 1)

/-- The classification `isspace` of the C locale. -/
def isspace (c : Char) : Bool :=
  c.toNat = 32 || (9 ≤ c.toNat && c.toNat ≤ 13)

/-- The classification `isdigit`. -/
def isdigit (c : Char) : Bool :=
  48 ≤ c.toNat && c.toNat ≤ 57

/-- The value of a run of decimal digits, most significant first. -/
def digitsValue (ds : Str) : Nat :=
  ds.foldl (fun acc c => 10 * acc + (c.toNat - 48)) 0

/-- The optional sign read by `strtol`: whether it is a minus, and the rest. -/
def stripSign : Str → Bool × Str
  | '-' :: t => (true, t)
  | '+' :: t => (false, t)
  | s => (false, s)

/-- The call `std::stoi(s)` (base 10, 32-bit `int`): leading whitespace is skipped, one
optional sign is read, then the longest run of digits; what follows is ignored.
Without a digit it throws `std::invalid_argument`, and `std::out_of_range` when the
number does not fit an `int`. -/
def stoi (s : Str) : Except Exception Int :=
  let body := stripSign (s.dropWhile isspace)
  let ds := body.2.takeWhile isdigit
  if ds = [] then
    .error .invalid_argument
  else
    let v : Int := if body.1 then -(digitsValue ds : Int) else (digitsValue ds : Int)
    if v < -2147483648 ∨ 2147483647 < v then .error .out_of_range else .ok v

/-- The decimal text of an unsigned number, as produced by `std::to_string` and by
`operator<<` on a `uint16_t`. -/
def to_string (n : Nat) : Str :=
  Nat.toDigits 10 n

/-- The conversion `static_cast<uint16_t>` of an `int`. -/
def castUInt16 (v : Int) : Nat :=
  (v % 65536).toNat

/-! ## `Protocol` (protocol.hpp) -/

namespace Protocol

/-- The private function `Protocol::commandToString`. -/
def commandToString : Command → Str
  | .REGISTER => "REGISTER".toList
  | .PEER_INFO => "PEER_INFO".toList
  | .HOLE_PUNCH => "HOLE_PUNCH".toList
  | .MESSAGE => "MESSAGE".toList
  | .ECHO => "ECHO".toList
  | .PING => "PING".toList
  | .PONG => "PONG".toList
  | .QUIT => "QUIT".toList
  | .ERROR => "ERROR".toList
  | .UNKNOWN => "UNKNOWN".toList

/-- The private function `Protocol::stringToCommand`. -/
def stringToCommand (cmd_str : Str) : Command :=
  if cmd_str = "REGISTER".toList then .REGISTER
  else if cmd_str = "PEER_INFO".toList then .PEER_INFO
  else if cmd_str = "HOLE_PUNCH".toList then .HOLE_PUNCH
  else if cmd_str = "MESSAGE".toList then .MESSAGE
  else if cmd_str = "ECHO".toList then .ECHO
  else if cmd_str = "PING".toList then .PING
  else if cmd_str = "PONG".toList then .PONG
  else if cmd_str = "QUIT".toList then .QUIT
  else if cmd_str = "ERROR".toList then .ERROR
  else .UNKNOWN

/-- The function `Protocol::serialize(cmd, data)`; the C++ default for `data` is the
empty string. -/
def serialize (cmd : Command) (data : Str) : Str :=
  commandToString cmd ++ (if data ≠ [] then ':' :: data else [])

/-- The function `Protocol::parse(message)`. -/
def parse (message : Str) : Command × Str :=
  match find ':' message with
  | some colon_pos =>
      (stringToCommand (message.take colon_pos), message.drop (colon_pos + 1))
  | none => (stringToCommand message, [])

/-- The function `Protocol::isValidCommand`. -/
def isValidCommand (message : Str) : Bool :=
  (parse message).1 != Command.UNKNOWN

/-- The function `Protocol::createPong`. -/
def createPong : Str :=
  serialize .PONG []

/-- The function `Protocol::createError`. -/
def createError (error_msg : Str) : Str :=
  serialize .ERROR error_msg

/-- The function `Protocol::createPeerInfo(peer_ip, peer_port)`. -/
def createPeerInfo (peer_ip : Str) (peer_port : Nat) : Str :=
  serialize .PEER_INFO (peer_ip ++ ':' :: to_string peer_port)

/-- The function `Protocol::parsePeerInfo(data)`. -/
def parsePeerInfo (data : Str) : Except Exception (Str × Nat) :=
  match find ':' data with
  | none => .error (.runtime_error "Invalid peer info format")
  | some colon_pos =>
      match stoi (data.drop (colon_pos + 1)) with
      | .error e => .error e
      | .ok v => .ok (data.take colon_pos, castUInt16 v)

end Protocol

/-! ## The transport (socket_wrapper.hpp) -/

/-- One UDP datagram with the address it is sent to. -/
structure Datagram where
  data : Str
  ip : Str
  port : Nat
  deriving DecidableEq, Repr, Inhabited

/-- The behaviour of the network under `SocketWrapper::sendto`: for the call with a
given index (the number of calls made on the socket before it) and a given datagram,
whether the call returns (`true`) or throws `std::runtime_error` (`false`). -/
abbrev Transport := Nat → Datagram → Bool

/-- The sending side of a UDP `SocketWrapper`: every `sendto` call made on it, in
order, with its outcome. -/
structure SocketWrapper where
  attempts : List (Datagram × Bool)
  deriving DecidableEq, Repr

namespace SocketWrapper

/-- The call `socket.sendto(data, address, port)`: the call is logged; the result is
`true` when it returns and `false` when it throws `std::runtime_error`. -/
def sendto (net : Transport) (socket : SocketWrapper) (data address : Str) (port : Nat) :
    Bool × SocketWrapper :=
  let d : Datagram := { data := data, ip := address, port := port }
  let ok := net socket.attempts.length d
  (ok, { attempts := socket.attempts ++ [(d, ok)] })

/-- The datagrams the network accepted from this socket, in the order sent. -/
def delivered (socket : SocketWrapper) : List Datagram :=
  (socket.attempts.filter (fun a => a.2)).map (fun a => a.1)

/-- The payloads delivered to one address, in the order sent. -/
def deliveredTo (socket : SocketWrapper) (ip : Str) (port : Nat) : List Str :=
  (socket.delivered.filter (fun d => d.ip = ip ∧ d.port = port)).map (fun d => d.data)

end SocketWrapper

/-! ## `RendezvousServer` (rendezvous_server.hpp, rendezvous_server.cpp) -/

/-- The struct `PeerInfo` of `rendezvous_server.hpp`. -/
structure PeerInfo where
  ip : Str
  port : Nat
  id : Str
  deriving DecidableEq, Repr, Inhabited

/-- The order `std::less<std::string>` of the map keys: lexicographic on the character
codes, a proper prefix coming first. -/
def strLt : Str → Str → Bool
  | [], [] => false
  | [], _ :: _ => true
  | _ :: _, [] => false
  | a :: as, b :: bs =>
      if a.toNat < b.toNat then true
      else if b.toNat < a.toNat then false
      else strLt as bs

/-- The member `std::map<std::string, PeerInfo> peers_`: its entries in iteration
order, which is the increasing order of the keys. -/
abbrev PeerMap := List (Str × PeerInfo)

namespace PeerMap

/-- The assignment `peers_[key] = value`: the entry is inserted at its place in the key
order, or the value stored under an equal key is replaced. -/
def assign (key : Str) (value : PeerInfo) : PeerMap → PeerMap
  | [] => [(key, value)]
  | (k, v) :: rest =>
      if strLt key k then (key, value) :: (k, v) :: rest
      else if strLt k key then (k, v) :: assign key value rest
      else (k, value) :: rest

/-- The lookup `peers_.find(key)`, used to state what the map holds. -/
def lookup (key : Str) : PeerMap → Option PeerInfo
  | [] => none
  | (k, v) :: rest => if k = key then some v else lookup key rest

/-- The keys of the map, in iteration order. -/
def keys (m : PeerMap) : List Str :=
  m.map (fun e => e.1)

/-- The class invariant of `std::map`: the keys are strictly increasing. -/
def Ordered : PeerMap → Prop
  | [] => True
  | [_] => True
  | (k1, _) :: (k2, v2) :: rest => strLt k1 k2 = true ∧ Ordered ((k2, v2) :: rest)

/-- The invariant can be checked by running through the entries. -/
instance decidableOrdered : (m : PeerMap) → Decidable (Ordered m)
  | [] => isTrue trivial
  | [_] => isTrue trivial
  | (k1, _) :: (k2, v2) :: rest =>
      match decidableOrdered ((k2, v2) :: rest) with
      | isTrue h =>
          if hk : strLt k1 k2 = true then isTrue ⟨hk, h⟩ else isFalse (fun c => hk c.1)
      | isFalse h => isFalse (fun c => h c.2)

end PeerMap

/-- The state of a `RendezvousServer` that the handlers read and write. -/
structure RendezvousServer where
  peers_ : PeerMap
  deriving DecidableEq, Repr

namespace RendezvousServer

open Protocol

/-- The identifier computed on the first line of `processRegister`. -/
def client_id (data sender_ip : Str) (sender_port : Nat) : Str :=
  if data = [] then sender_ip ++ ':' :: to_string sender_port else data

/-- The method `RendezvousServer::processRegister`: the response and the new state. -/
def processRegister (self : RendezvousServer) (data sender_ip : Str) (sender_port : Nat) :
    Str × RendezvousServer :=
  let id := client_id data sender_ip sender_port
  let peer : PeerInfo := { ip := sender_ip, port := sender_port, id := id }
  (serialize .REGISTER "OK".toList, { peers_ := self.peers_.assign id peer })

/-- The method `RendezvousServer::matchPeers`. The two `sendto` calls and the `clear`
stand in one `try` block: a call that throws ends the block, and the handler only
logs. -/
def matchPeers (net : Transport) (self : RendezvousServer) (socket : SocketWrapper) :
    RendezvousServer × SocketWrapper :=
  if self.peers_.length < 2 then (self, socket)
  else
    match self.peers_ with
    | (_, peer1) :: (_, peer2) :: _ =>
        let peer1_info := createPeerInfo peer2.ip peer2.port
        let peer2_info := createPeerInfo peer1.ip peer1.port
        match socket.sendto net peer1_info peer1.ip peer1.port with
        | (false, socket1) => (self, socket1)
        | (true, socket1) =>
            match socket1.sendto net peer2_info peer2.ip peer2.port with
            | (false, socket2) => (self, socket2)
            | (true, socket2) => ({ peers_ := [] }, socket2)
    | _ => (self, socket)

/-- The method `RendezvousServer::handleClient`. -/
def handleClient (net : Transport) (self : RendezvousServer) (socket : SocketWrapper)
    (message sender_ip : Str) (sender_port : Nat) : RendezvousServer × SocketWrapper :=
  let (cmd, data) := parse message
  let (response, self1, socket1) : Str × RendezvousServer × SocketWrapper :=
    match cmd with
    | .REGISTER =>
        let (response, self1) := processRegister self data sender_ip sender_port
        if self1.peers_.length ≥ 2 then
          let (self2, socket1) := matchPeers net self1 socket
          (response, self2, socket1)
        else (response, self1, socket)
    | .PING => (createPong, self, socket)
    | _ => (createError "Unknown command".toList, self, socket)
  if response ≠ [] then (self1, (socket1.sendto net response sender_ip sender_port).2)
  else (self1, socket1)

/-- The loop of `RendezvousServer::run` over the datagrams received so far, each with
its sender address. -/
def run (net : Transport) (self : RendezvousServer) (socket : SocketWrapper) :
    List (Str × Str × Nat) → RendezvousServer × SocketWrapper
  | [] => (self, socket)
  | (message, sender_ip, sender_port) :: rest =>
      let (self1, socket1) := handleClient net self socket message sender_ip sender_port
      run net self1 socket1 rest

end RendezvousServer

/-! ## `P2PClient` (p2p_client.hpp, p2p_client.cpp) -/

/-- The data members of `P2PClient` that the traversal reads and writes. -/
structure P2PClient where
  rendezvous_address_ : Str
  rendezvous_port_ : Nat
  peer_ip_ : Str
  peer_port_ : Nat
  connected_ : Bool
  running_ : Bool
  deriving DecidableEq, Repr

namespace P2PClient

open Protocol

/-- The method `P2PClient::registerWithRendezvous`. `received` is what the one blocking
`receivefrom` call gives: a datagram, or `none` when it throws `std::runtime_error`.
The reply is only logged, whatever its command; a throwing `sendto` or `receivefrom`
ends the method with its `std::runtime_error`. -/
def registerWithRendezvous (net : Transport) (self : P2PClient) (socket : SocketWrapper)
    (received : Option Str) : Except Exception (P2PClient × SocketWrapper) :=
  let register_msg := serialize .REGISTER []
  match socket.sendto net register_msg self.rendezvous_address_ self.rendezvous_port_ with
  | (false, _) => .error (.runtime_error "Failed to send data via UDP")
  | (true, socket1) =>
      match received with
      | none => .error (.runtime_error "Failed to receive data via UDP")
      | some _ => .ok (self, socket1)

/-- The method `P2PClient::waitForPeerInfo`. The list holds the outcome of each
non-blocking `receivefrom` call made before the 30 s deadline: a datagram, or `none`
when the call throws `std::runtime_error` (nothing has arrived). The `catch` clause
handles `std::runtime_error` only; the loop ends at a PEER_INFO that decodes, and when
the polls are used up the deadline has passed. -/
def waitForPeerInfo (self : P2PClient) : List (Option Str) → Except Exception P2PClient
  | [] => .error (.runtime_error "Timeout waiting for peer information")
  | none :: polls => waitForPeerInfo self polls
  | some response :: polls =>
      let (cmd, data) := parse response
      if cmd = .PEER_INFO then
        match parsePeerInfo data with
        | .ok (peer_ip, peer_port) =>
            .ok { self with peer_ip_ := peer_ip, peer_port_ := peer_port }
        | .error (.runtime_error _) => waitForPeerInfo self polls
        | .error e => .error e
      else waitForPeerInfo self polls

end P2PClient

/-! ## Notions used to state the properties of the codec -/

/-- The nine command names of the wire format (every command but `UNKNOWN`). -/
def commandNames : List Str :=
  [Command.REGISTER, Command.PEER_INFO, Command.HOLE_PUNCH, Command.MESSAGE, Command.ECHO,
    Command.PING, Command.PONG, Command.QUIT, Command.ERROR].map Protocol.commandToString

/-- The text of a message before its first colon, the whole message when it has none. -/
def beforeColon (s : Str) : Str :=
  s.takeWhile (fun c => c != ':')

/-- The text of a message after its first colon, empty when it has none. -/
def afterColon (s : Str) : Str :=
  (s.dropWhile (fun c => c != ':')).drop 1

/-- A text begins with a base-10 integer in the sense of `strtol`: some whitespace, at
most one sign, then a digit. -/
def HasLeadingInt (seg : Str) : Prop :=
  ∃ (ws sgn : Str) (d : Char) (rest : Str),
    seg = ws ++ sgn ++ d :: rest ∧ (∀ c ∈ ws, isspace c = true) ∧
      (sgn = [] ∨ sgn = ['+'] ∨ sgn = ['-']) ∧ isdigit d = true

/-- The number denoted by a sign and a run of digits. -/
def signedValue (sgn ds : Str) : Int :=
  if sgn = ['-'] then -(digitsValue ds : Int) else (digitsValue ds : Int)

/-! ## Notions used to state the properties of the coordinator -/

/-- A network on which every `sendto` call succeeds. -/
def allSendsSucceed : Transport :=
  fun _ _ => true

/-- A network on which exactly the `sendto` call of index `i` throws. -/
def failsAt (i : Nat) : Transport :=
  fun n _ => n != i

/-- The PEER_INFO datagram that tells the peer `dest` the address of the peer `other`. -/
def peerInfoFor (dest other : PeerInfo) : Datagram :=
  { data := Protocol.createPeerInfo other.ip other.port, ip := dest.ip, port := dest.port }

/-- The reply "REGISTER:OK" addressed to a sender. -/
def registerOkTo (ip : Str) (port : Nat) : Datagram :=
  { data := "REGISTER:OK".toList, ip := ip, port := port }

/-- The state after a sequence of `processRegister` calls, each REGISTER given by its
payload and its sender address. -/
def registerAll (self : RendezvousServer) (regs : List (Str × Str × Nat)) : RendezvousServer :=
  regs.foldl (fun s r => (RendezvousServer.processRegister s r.1 r.2.1 r.2.2).2) self

/-- The ids under which a sequence of REGISTER datagrams is stored. -/
def registeredIds (regs : List (Str × Str × Nat)) : List Str :=
  regs.map (fun r => RendezvousServer.client_id r.1 r.2.1 r.2.2)

namespace P2PClient

/-- The start of `P2PClient::run` once the socket is bound: `registerWithRendezvous`,
then `waitForPeerInfo`. An exception of either ends the traversal. -/
def runUntilPeerInfo (net : Transport) (self : P2PClient) (socket : SocketWrapper)
    (received : Option Str) (polls : List (Option Str)) : Except Exception P2PClient :=
  match registerWithRendezvous net self socket received with
  | .error e => .error e
  | .ok (self1, _) => waitForPeerInfo self1 polls

end P2PClient

namespace P2PClient

open Protocol

/-- The `for` loop of `P2PClient::sendHolePunchPackets` with the given number of
iterations left: each one calls `sendto` inside its own `try`, so a call that throws is
logged and the loop goes on. -/
def sendHolePunchLoop (net : Transport) (socket : SocketWrapper) (peer_ip : Str)
    (peer_port : Nat) : Nat → SocketWrapper
  | 0 => socket
  | n + 1 =>
      sendHolePunchLoop net
        (socket.sendto net (serialize .HOLE_PUNCH []) peer_ip peer_port).2 peer_ip peer_port n

/-- The method `P2PClient::sendHolePunchPackets(peer_ip, peer_port, count)`, `count`
being an `int`: the loop `for (int i = 0; i < count; ++i)` runs `count` times, and not
at all when `count` is negative. -/
def sendHolePunchPackets (net : Transport) (socket : SocketWrapper) (peer_ip : Str)
    (peer_port : Nat) (count : Int) : SocketWrapper :=
  sendHolePunchLoop net socket peer_ip peer_port count.toNat

/-- The method `P2PClient::establishConnection`. The list holds the outcome of each
non-blocking `receivefrom` call made before the 5 s deadline, a datagram with its
sender address or `none` when the call throws `std::runtime_error`. -/
def establishConnection (peer_ip : Str) (peer_port : Nat) :
    List (Option (Str × Str × Nat)) → Bool
  | [] => false
  | none :: polls => establishConnection peer_ip peer_port polls
  | some (_, sender_ip, sender_port) :: polls =>
      if sender_ip = peer_ip ∧ sender_port = peer_port then true
      else establishConnection peer_ip peer_port polls

/-- The method `P2PClient::performHolePunching`, for a socket `p2p_socket_` that could
be created and bound: the new socket has sent nothing yet; the result of
`establishConnection` only decides a warning. -/
def performHolePunching (net : Transport) (self : P2PClient) (peer_ip : Str) (peer_port : Nat)
    (polls : List (Option (Str × Str × Nat))) : P2PClient × SocketWrapper :=
  let p2p_socket_ : SocketWrapper := { attempts := [] }
  let p2p_socket_1 := sendHolePunchPackets net p2p_socket_ peer_ip peer_port 10
  let _connection_established := establishConnection peer_ip peer_port polls
  ({ self with connected_ := true }, p2p_socket_1)

/-- The body of the loop of `P2PClient::handleIncomingMessages` for one datagram
returned by `receivefrom`. The PONG is sent inside the `try` block, and the
`std::runtime_error` of a failed `sendto` is caught by the first `catch` clause. -/
def handleIncomingMessage (net : Transport) (self : P2PClient) (socket : SocketWrapper)
    (message sender_ip : Str) (sender_port : Nat) : P2PClient × SocketWrapper :=
  if sender_ip = self.peer_ip_ ∧ sender_port = self.peer_port_ then
    match (parse message).1 with
    | .MESSAGE => (self, socket)
    | .PING => (self, (socket.sendto net createPong self.peer_ip_ self.peer_port_).2)
    | .PONG => (self, socket)
    | .QUIT => ({ self with running_ := false }, socket)
    | _ => (self, socket)
  else (self, socket)

/-- The method `P2PClient::handleIncomingMessages` over the outcomes of its
`receivefrom` calls, a datagram with its sender address or `none` when the call
throws: the loop runs while `running_` holds. -/
def handleIncomingMessages (net : Transport) (self : P2PClient) (socket : SocketWrapper) :
    List (Option (Str × Str × Nat)) → P2PClient × SocketWrapper
  | [] => (self, socket)
  | received :: rest =>
      if self.running_ then
        match received with
        | none => handleIncomingMessages net self socket rest
        | some (message, sender_ip, sender_port) =>
            let (self1, socket1) :=
              handleIncomingMessage net self socket message sender_ip sender_port
            handleIncomingMessages net self1 socket1 rest
      else (self, socket)

/-- How one iteration of the loop of `sendMessages` ends. -/
inductive LoopControl where
  | next
  | stop
  | thrown (e : Exception)
  deriving DecidableEq, Repr

/-- The body of the loop of `P2PClient::sendMessages` for one line read from the input.
The `sendto` of the QUIT frame stands outside any `try`: when it throws, the exception
leaves the method before `running_` is written. The `sendto` of every other frame is
inside a `try`, and a failure is only logged. -/
def sendMessagesLine (net : Transport) (self : P2PClient) (socket : SocketWrapper)
    (input : Str) : P2PClient × SocketWrapper × LoopControl :=
  if input = [] then (self, socket, .next)
  else if input = "QUIT".toList then
    match socket.sendto net (serialize .QUIT []) self.peer_ip_ self.peer_port_ with
    | (false, socket1) => (self, socket1, .thrown (.runtime_error "Failed to send data via UDP"))
    | (true, socket1) => ({ self with running_ := false }, socket1, .stop)
  else
    let command :=
      if find ':' input = none ∧ input ≠ "PING".toList then serialize .MESSAGE input
      else input
    let command := if input = "PING".toList then serialize .PING [] else command
    (self, (socket.sendto net command self.peer_ip_ self.peer_port_).2, .next)

/-- The method `P2PClient::sendMessages` over the lines read from the input: the loop
runs while `running_` and `connected_` hold. The result tells whether an exception left
the method. -/
def sendMessages (net : Transport) (self : P2PClient) (socket : SocketWrapper) :
    List Str → P2PClient × SocketWrapper × Option Exception
  | [] => (self, socket, none)
  | input :: rest =>
      if self.running_ && self.connected_ then
        match sendMessagesLine net self socket input with
        | (self1, socket1, .next) => sendMessages net self1 socket1 rest
        | (self1, socket1, .stop) => (self1, socket1, none)
        | (self1, socket1, .thrown e) => (self1, socket1, some e)
      else (self, socket, none)

end P2PClient

/-! ## Notions used to state the properties of the client -/

/-- The HOLE_PUNCH datagram addressed to a peer. -/
def holePunchTo (ip : Str) (port : Nat) : Datagram :=
  { data := "HOLE_PUNCH".toList, ip := ip, port := port }

/-- The pairs of a command and its name in the wire format. -/
def wireNames : List (Command × Str) :=
  [(.REGISTER, "REGISTER".toList), (.PEER_INFO, "PEER_INFO".toList),
   (.HOLE_PUNCH, "HOLE_PUNCH".toList), (.MESSAGE, "MESSAGE".toList), (.ECHO, "ECHO".toList),
   (.PING, "PING".toList), (.PONG, "PONG".toList), (.QUIT, "QUIT".toList),
   (.ERROR, "ERROR".toList)]

end network

namespace network

/-! ## Lemmas on the string functions -/

theorem find_eq_none_of_not_mem (c : Char) (s : Str) (h : c ∉ s) : find c s = none := by
  induction s with
  | nil => rfl
  | cons x xs ih =>
      have hx : x ≠ c := fun e => h (by simp [e])
      have hxs : c ∉ xs := fun m => h (List.mem_cons_of_mem _ m)
      simp [find, hx, ih hxs]

theorem find_append_cons (c : Char) (a b : Str) (h : c ∉ a) :
    find c (a ++ c :: b) = some a.length := by
  induction a with
  | nil => simp [find]
  | cons x xs ih =>
      have hx : x ≠ c := fun e => h (by simp [e])
      have hxs : c ∉ xs := fun m => h (List.mem_cons_of_mem _ m)
      simp [find, hx, ih hxs]

theorem find_spec (c : Char) (s : Str) (pos : Nat) (h : find c s = some pos) :
    c ∉ s.take pos ∧ s = s.take pos ++ c :: s.drop (pos + 1) := by
  induction s generalizing pos with
  | nil => simp [find] at h
  | cons x xs ih =>
      by_cases hx : x = c
      · simp [find, hx] at h
        subst h
        simp [hx]
      · simp only [find, hx, if_false] at h
        cases hf : find c xs with
        | none => simp [hf] at h
        | some q =>
            simp [hf] at h
            subst h
            obtain ⟨h1, h2⟩ := ih q hf
            refine ⟨?_, ?_⟩
            · simp only [List.take_succ_cons, List.mem_cons, not_or]
              exact ⟨fun e => hx e.symm, h1⟩
            · simp only [List.take_succ_cons, List.drop_succ_cons, List.cons_append]
              rw [← h2]

theorem mem_of_find_eq_some (c : Char) (s : Str) (pos : Nat) (h : find c s = some pos) :
    c ∈ s := by
  have h2 := (find_spec c s pos h).2
  rw [h2]
  simp

theorem digitChar_isdigit (k : Nat) (h : k < 10) : isdigit (Nat.digitChar k) = true := by
  interval_cases k <;> decide

theorem digitChar_value (k : Nat) (h : k < 10) : (Nat.digitChar k).toNat - 48 = k := by
  interval_cases k <;> decide

theorem digitsValue_append_singleton (l : Str) (d : Char) :
    digitsValue (l ++ [d]) = 10 * digitsValue l + (d.toNat - 48) := by
  simp [digitsValue, List.foldl_append]

theorem toDigitsCore_spec (fuel : Nat) : ∀ n : Nat, n < fuel →
    ∃ l : Str, l ≠ [] ∧ (∀ c ∈ l, isdigit c = true) ∧ digitsValue l = n ∧
      ∀ ds : Str, Nat.toDigitsCore 10 fuel n ds = l ++ ds := by
  induction fuel with
  | zero => intro n h; omega
  | succ f ih =>
      intro n hn
      by_cases h0 : n / 10 = 0
      · refine ⟨[Nat.digitChar (n % 10)], by simp, ?_, ?_, ?_⟩
        · intro c hc
          simp only [List.mem_singleton] at hc
          subst hc
          exact digitChar_isdigit _ (Nat.mod_lt _ (by decide))
        · have : n < 10 := by omega
          simp only [digitsValue, List.foldl_cons, List.foldl_nil, Nat.mod_eq_of_lt this]
          rw [digitChar_value n this]
          omega
        · intro ds
          simp [Nat.toDigitsCore, h0]
      · have hlt : n / 10 < f := by omega
        obtain ⟨l, _, hdig, hval, hcore⟩ := ih (n / 10) hlt
        refine ⟨l ++ [Nat.digitChar (n % 10)], by simp, ?_, ?_, ?_⟩
        · intro c hc
          rcases List.mem_append.mp hc with hc | hc
          · exact hdig c hc
          · simp only [List.mem_singleton] at hc
            subst hc
            exact digitChar_isdigit _ (Nat.mod_lt _ (by decide))
        · rw [digitsValue_append_singleton, hval,
            digitChar_value _ (Nat.mod_lt n (by decide : 10 > 0))]
          omega
        · intro ds
          simp [Nat.toDigitsCore, h0, hcore]

theorem to_string_spec (n : Nat) :
    to_string n ≠ [] ∧ (∀ c ∈ to_string n, isdigit c = true) ∧ digitsValue (to_string n) = n := by
  obtain ⟨l, hne, hdig, hval, hcore⟩ := toDigitsCore_spec (n + 1) n (Nat.lt_succ_self n)
  have e : to_string n = l := by
    simp [to_string, Nat.toDigits, hcore]
  rw [e]
  exact ⟨hne, hdig, hval⟩

theorem isdigit_not_isspace (c : Char) (h : isdigit c = true) : isspace c = false := by
  simp only [isdigit, Bool.and_eq_true, decide_eq_true_eq] at h
  simp only [isspace, Bool.or_eq_false_iff, Bool.and_eq_false_iff, decide_eq_false_iff_not]
  omega

theorem isdigit_ne_colon (c : Char) (h : isdigit c = true) : c ≠ ':' := by
  intro e
  subst e
  revert h
  decide

theorem isdigit_ne_minus (c : Char) (h : isdigit c = true) : c ≠ '-' := by
  intro e
  subst e
  revert h
  decide

theorem isdigit_ne_plus (c : Char) (h : isdigit c = true) : c ≠ '+' := by
  intro e
  subst e
  revert h
  decide

theorem stripSign_of_digit (d : Char) (rest : Str) (h : isdigit d = true) :
    stripSign (d :: rest) = (false, d :: rest) := by
  have h1 := isdigit_ne_minus d h
  have h2 := isdigit_ne_plus d h
  unfold stripSign
  split
  · rename_i heq; injection heq with e _; exact absurd e h1
  · rename_i heq; injection heq with e _; exact absurd e h2
  · rfl

theorem takeWhile_all (p : Char → Bool) (l : Str) (h : ∀ c ∈ l, p c = true) :
    l.takeWhile p = l := by
  induction l with
  | nil => rfl
  | cons x xs ih =>
      have hx := h x (by simp)
      simp [List.takeWhile, hx, ih (fun c hc => h c (List.mem_cons_of_mem _ hc))]

/-- Reading back the decimal text of a number that fits an `int`. -/
theorem stoi_to_string (n : Nat) (h : n ≤ 2147483647) : stoi (to_string n) = .ok (n : Int) := by
  obtain ⟨hne, hdig, hval⟩ := to_string_spec n
  cases hl : to_string n with
  | nil => exact absurd hl hne
  | cons d rest =>
      rw [hl] at hdig hval
      have hd : isdigit d = true := hdig d (by simp)
      have hsp : isspace d = false := isdigit_not_isspace d hd
      have h1 : List.dropWhile isspace (d :: rest) = d :: rest := by
        simp [List.dropWhile, hsp]
      have h3 : List.takeWhile isdigit (d :: rest) = d :: rest := takeWhile_all _ _ hdig
      simp only [stoi, h1, stripSign_of_digit d rest hd, h3, hval]
      simp
      omega

end network

namespace network

open Protocol

/-! ## The codec -/

theorem commandToString_no_colon (c : Command) : ':' ∉ commandToString c := by
  cases c <;> decide

theorem stringToCommand_commandToString (c : Command) :
    stringToCommand (commandToString c) = c := by
  cases c <;> decide

theorem parse_append_colon (name p : Str) (h : ':' ∉ name) :
    parse (name ++ ':' :: p) = (stringToCommand name, p) := by
  simp [parse, find_append_cons ':' name p h]

theorem parse_of_no_colon (s : Str) (h : ':' ∉ s) : parse s = (stringToCommand s, []) := by
  simp [parse, find_eq_none_of_not_mem ':' s h]

/-- C1. Round trip of the codec: for every command `c` and every payload `p` (empty,
containing colons or beginning with one), parsing the serialized message gives back
exactly `(c, p)`. -/
theorem parse_serialize (c : Command) (p : Str) : parse (serialize c p) = (c, p) := by
  by_cases hp : p = []
  · subst hp
    simp [serialize, parse_of_no_colon _ (commandToString_no_colon c),
      stringToCommand_commandToString]
  · simp [serialize, hp, parse_append_colon _ p (commandToString_no_colon c),
      stringToCommand_commandToString]

theorem stringToCommand_unknown (s : Str) (h : s ∉ commandNames) :
    stringToCommand s = .UNKNOWN := by
  simp only [commandNames, List.map, commandToString, List.mem_cons, List.mem_singleton,
    List.not_mem_nil, or_false, not_or] at h
  obtain ⟨h1, h2, h3, h4, h5, h6, h7, h8, h9⟩ := h
  unfold stringToCommand
  rw [if_neg h1, if_neg h2, if_neg h3, if_neg h4, if_neg h5, if_neg h6, if_neg h7, if_neg h8,
    if_neg h9]

theorem find_none_split (s : Str) (h : find ':' s = none) :
    beforeColon s = s ∧ afterColon s = [] := by
  induction s with
  | nil => exact ⟨rfl, rfl⟩
  | cons x xs ih =>
      by_cases hx : x = ':'
      · simp [find, hx] at h
      · simp only [find, hx, if_false, Option.map_eq_none'] at h
        obtain ⟨h1, h2⟩ := ih h
        have hb : (x != ':') = true := by simp [hx]
        simp only [beforeColon, afterColon] at h1 h2 ⊢
        rw [List.takeWhile_cons, List.dropWhile_cons, hb]
        simp [h1, h2]

theorem find_some_split (s : Str) (pos : Nat) (h : find ':' s = some pos) :
    s.take pos = beforeColon s ∧ s.drop (pos + 1) = afterColon s := by
  induction s generalizing pos with
  | nil => simp [find] at h
  | cons x xs ih =>
      by_cases hx : x = ':'
      · simp [find, hx] at h
        subst h
        simp [beforeColon, afterColon, List.takeWhile, List.dropWhile, hx]
      · simp only [find, hx, if_false] at h
        cases hf : find ':' xs with
        | none => simp [hf] at h
        | some q =>
            simp [hf] at h
            subst h
            obtain ⟨h1, h2⟩ := ih q hf
            have hb : (x != ':') = true := by simp [hx]
            simp only [beforeColon, afterColon] at h1 h2 ⊢
            rw [List.takeWhile_cons, List.dropWhile_cons, hb]
            simp [h1, h2]

theorem parse_eq_split (raw : Str) :
    parse raw = (stringToCommand (beforeColon raw), afterColon raw) := by
  cases hf : find ':' raw with
  | none =>
      obtain ⟨h1, h2⟩ := find_none_split raw hf
      simp [parse, hf, h1, h2]
  | some pos =>
      obtain ⟨h1, h2⟩ := find_some_split raw pos hf
      simp [parse, hf, h1, h2]

/-- C2, at the input "FOOBAR": its text is not a command name, and `parse` returns
`UNKNOWN` with the empty payload, not with the original text. -/
theorem parse_FOOBAR_drops_text :
    beforeColon "FOOBAR".toList ∉ commandNames ∧
      parse "FOOBAR".toList = (.UNKNOWN, []) ∧
      parse "FOOBAR".toList ≠ (.UNKNOWN, "FOOBAR".toList) := by
  decide

/-- C2 (amended). When the text before the first colon (the whole text when there is no
colon) is not one of the nine command names, `parse` returns `UNKNOWN` with the text
after the first colon as payload, which is the empty string when there is no colon. -/
theorem parse_unknown (raw : Str) (h : beforeColon raw ∉ commandNames) :
    parse raw = (.UNKNOWN, afterColon raw) ∧ (':' ∉ raw → (parse raw).2 = []) := by
  refine ⟨?_, ?_⟩
  · rw [parse_eq_split, stringToCommand_unknown _ h]
  · intro hc
    rw [parse_of_no_colon raw hc]

/-- C2 (amended), at "FOOBAR" and at the empty text. -/
theorem parse_unknown_witness :
    (parse "FOOBAR".toList = (.UNKNOWN, []) ∧
      (':' ∉ "FOOBAR".toList → (parse "FOOBAR".toList).2 = [])) ∧
    (parse ([] : Str) = (.UNKNOWN, []) ∧ (':' ∉ ([] : Str) → (parse ([] : Str)).2 = [])) :=
  ⟨parse_unknown "FOOBAR".toList (by decide), parse_unknown [] (by decide)⟩

end network

namespace network

open Protocol

/-! ## Peer information -/

theorem dropWhile_isspace_append (ws : Str) (c : Char) (t : Str)
    (hws : ∀ x ∈ ws, isspace x = true) (hc : isspace c = false) :
    List.dropWhile isspace (ws ++ c :: t) = c :: t := by
  induction ws with
  | nil => simp [List.dropWhile_cons, hc]
  | cons x xs ih =>
      have hx := hws x (by simp)
      rw [List.cons_append, List.dropWhile_cons, hx]
      exact ih (fun y hy => hws y (List.mem_cons_of_mem _ hy))

theorem takeWhile_isdigit_append (ds rest : Str) (hds : ∀ c ∈ ds, isdigit c = true)
    (hrest : ∀ c ∈ rest.head?, isdigit c = false) :
    List.takeWhile isdigit (ds ++ rest) = ds := by
  induction ds with
  | nil =>
      cases rest with
      | nil => rfl
      | cons r rs =>
          have hr : isdigit r = false := hrest r (by simp)
          simp [List.takeWhile_cons, hr]
  | cons d ds ih =>
      have hd := hds d (by simp)
      rw [List.cons_append, List.takeWhile_cons, hd]
      simp [ih (fun y hy => hds y (List.mem_cons_of_mem _ hy))]

theorem stripSign_split (s : Str) :
    ∃ sgn : Str, s = sgn ++ (stripSign s).2 ∧ (sgn = [] ∨ sgn = ['+'] ∨ sgn = ['-']) := by
  unfold stripSign
  split
  · exact ⟨['-'], by simp, by simp⟩
  · exact ⟨['+'], by simp, by simp⟩
  · exact ⟨[], by simp, by simp⟩

theorem stoi_digits_of_leading (ws sgn ds rest : Str) (hws : ∀ c ∈ ws, isspace c = true)
    (hsgn : sgn = [] ∨ sgn = ['+'] ∨ sgn = ['-']) (hne : ds ≠ [])
    (hds : ∀ c ∈ ds, isdigit c = true) (hrest : ∀ c ∈ rest.head?, isdigit c = false) :
    stoi (ws ++ sgn ++ ds ++ rest) =
      if signedValue sgn ds < -2147483648 ∨ 2147483647 < signedValue sgn ds then
        .error .out_of_range
      else .ok (signedValue sgn ds) := by
  cases ds with
  | nil => exact absurd rfl hne
  | cons d ds1 =>
      have hd : isdigit d = true := hds d (by simp)
      have htw : List.takeWhile isdigit (d :: ds1 ++ rest) = d :: ds1 :=
        takeWhile_isdigit_append (d :: ds1) rest hds hrest
      rcases hsgn with h | h | h
      · subst h
        have h1 : List.dropWhile isspace (ws ++ [] ++ d :: ds1 ++ rest) = d :: (ds1 ++ rest) := by
          have := dropWhile_isspace_append ws d (ds1 ++ rest) hws (isdigit_not_isspace d hd)
          simpa using this
        have h2 : stripSign (d :: (ds1 ++ rest)) = (false, d :: (ds1 ++ rest)) :=
          stripSign_of_digit d _ hd
        have h3 : List.takeWhile isdigit (d :: (ds1 ++ rest)) = d :: ds1 := by
          simpa using htw
        simp only [stoi, h1, h2, h3, signedValue]
        simp
      · subst h
        have h1 : List.dropWhile isspace (ws ++ ['+'] ++ d :: ds1 ++ rest)
            = '+' :: (d :: ds1 ++ rest) := by
          have := dropWhile_isspace_append ws '+' (d :: ds1 ++ rest) hws (by decide)
          simpa using this
        have h2 : stripSign ('+' :: (d :: ds1 ++ rest)) = (false, d :: ds1 ++ rest) := rfl
        simp only [stoi, h1, h2, htw, signedValue]
        simp
      · subst h
        have h1 : List.dropWhile isspace (ws ++ ['-'] ++ d :: ds1 ++ rest)
            = '-' :: (d :: ds1 ++ rest) := by
          have := dropWhile_isspace_append ws '-' (d :: ds1 ++ rest) hws (by decide)
          simpa using this
        have h2 : stripSign ('-' :: (d :: ds1 ++ rest)) = (true, d :: ds1 ++ rest) := rfl
        simp only [stoi, h1, h2, htw, signedValue]
        simp

theorem stoi_invalid_of_no_leading (seg : Str) (h : ¬ HasLeadingInt seg) :
    stoi seg = .error .invalid_argument := by
  by_cases hds : List.takeWhile isdigit (stripSign (List.dropWhile isspace seg)).2 = []
  · simp [stoi, hds]
  · exfalso
    apply h
    obtain ⟨sgn, hsplit, hsgn⟩ := stripSign_split (List.dropWhile isspace seg)
    cases hb : (stripSign (List.dropWhile isspace seg)).2 with
    | nil => rw [hb] at hds; exact absurd rfl hds
    | cons d rest =>
        rw [hb] at hds hsplit
        have hd : isdigit d = true := by
          by_contra hd'
          simp [List.takeWhile_cons, hd'] at hds
        refine ⟨List.takeWhile isspace seg, sgn, d, rest, ?_, ?_, hsgn, hd⟩
        · rw [List.append_assoc, ← hsplit, List.takeWhile_append_dropWhile]
        · intro c hc
          exact (List.mem_takeWhile_imp hc)

theorem not_hasLeadingInt_of_head (c : Char) (t : Str) (hsp : isspace c = false)
    (hd : isdigit c = false) (hplus : c ≠ '+') (hminus : c ≠ '-') :
    ¬ HasLeadingInt (c :: t) := by
  rintro ⟨ws, sgn, d, rest, heq, hws, hsgn, hdig⟩
  cases ws with
  | cons w ws1 =>
      simp only [List.cons_append, List.cons.injEq] at heq
      have := hws w (by simp)
      rw [← heq.1, hsp] at this
      exact Bool.false_ne_true this
  | nil =>
      rcases hsgn with h | h | h <;> subst h <;>
        simp only [List.nil_append, List.cons_append, List.cons.injEq] at heq
      · rw [← heq.1, hd] at hdig
        exact Bool.false_ne_true hdig
      · exact hplus heq.1
      · exact hminus heq.1

theorem parsePeerInfo_append (ip seg : Str) (hip : ':' ∉ ip) :
    parsePeerInfo (ip ++ ':' :: seg) =
      match stoi seg with
      | .error e => .error e
      | .ok v => .ok (ip, castUInt16 v) := by
  simp [parsePeerInfo, find_append_cons ':' ip seg hip]

/-- C3, at three payloads with a port segment that is not an unsigned 16-bit number: a
number above 65535, a negative number, and digits followed by letters. Each time
`parsePeerInfo` returns a port. -/
theorem parsePeerInfo_returns_port_for_invalid_segment :
    parsePeerInfo "10.0.0.1:70000".toList = .ok ("10.0.0.1".toList, 4464) ∧
      parsePeerInfo "10.0.0.1:-1".toList = .ok ("10.0.0.1".toList, 65535) ∧
      parsePeerInfo "10.0.0.1:80abc".toList = .ok ("10.0.0.1".toList, 80) := by
  decide

/-- C3 (amended). `parsePeerInfo` fails for every payload without a colon, and for every
payload whose port segment (the text after the first colon) does not begin with a
base-10 integer: whitespace, at most one sign, then a digit. When the segment does
begin with one, what follows the digits is ignored: the call fails only if the number
does not fit a 32-bit `int`, and otherwise returns the number modulo 65536. It fails
for "10.0.0.1" and for "10.0.0.1:notaport". -/
theorem parsePeerInfo_failure_cases :
    (∀ data : Str, ':' ∉ data →
      parsePeerInfo data = .error (.runtime_error "Invalid peer info format")) ∧
    (∀ ip seg : Str, ':' ∉ ip → ¬ HasLeadingInt seg →
      parsePeerInfo (ip ++ ':' :: seg) = .error .invalid_argument) ∧
    (∀ ip ws sgn ds rest : Str, ':' ∉ ip → (∀ c ∈ ws, isspace c = true) →
      (sgn = [] ∨ sgn = ['+'] ∨ sgn = ['-']) → ds ≠ [] → (∀ c ∈ ds, isdigit c = true) →
      (∀ c ∈ rest.head?, isdigit c = false) →
      parsePeerInfo (ip ++ ':' :: (ws ++ sgn ++ ds ++ rest)) =
        if signedValue sgn ds < -2147483648 ∨ 2147483647 < signedValue sgn ds then
          .error .out_of_range
        else .ok (ip, (signedValue sgn ds % 65536).toNat)) ∧
    parsePeerInfo "10.0.0.1".toList = .error (.runtime_error "Invalid peer info format") ∧
    parsePeerInfo "10.0.0.1:notaport".toList = .error .invalid_argument := by
  refine ⟨?_, ?_, ?_, by decide, by decide⟩
  · intro data h
    simp [parsePeerInfo, find_eq_none_of_not_mem ':' data h]
  · intro ip seg hip hseg
    rw [parsePeerInfo_append ip seg hip, stoi_invalid_of_no_leading seg hseg]
  · intro ip ws sgn ds rest hip hws hsgn hne hds hrest
    rw [parsePeerInfo_append ip _ hip, stoi_digits_of_leading ws sgn ds rest hws hsgn hne hds hrest]
    by_cases hr : signedValue sgn ds < -2147483648 ∨ 2147483647 < signedValue sgn ds
    · rw [if_pos hr, if_pos hr]
    · rw [if_neg hr, if_neg hr]
      rfl

/-- C3 (amended), at a payload without a colon, at a segment of letters, and at the
segment " +80abc" of the payload "10.0.0.1: +80abc". -/
theorem parsePeerInfo_failure_cases_witness :
    parsePeerInfo "10.0.0.1".toList = .error (.runtime_error "Invalid peer info format") ∧
    parsePeerInfo ("10.0.0.1".toList ++ ':' :: "notaport".toList)
      = .error .invalid_argument ∧
    parsePeerInfo ("10.0.0.1".toList ++ ':' :: ([' '] ++ ['+'] ++ ['8', '0'] ++ ['a', 'b', 'c']))
      = .ok ("10.0.0.1".toList, 80) :=
  ⟨parsePeerInfo_failure_cases.1 "10.0.0.1".toList (by decide),
    parsePeerInfo_failure_cases.2.1 "10.0.0.1".toList "notaport".toList (by decide)
      (not_hasLeadingInt_of_head 'n' "otaport".toList (by decide) (by decide) (by decide)
        (by decide)),
    parsePeerInfo_failure_cases.2.2.1 "10.0.0.1".toList [' '] ['+'] ['8', '0'] ['a', 'b', 'c']
      (by decide) (by decide) (by decide) (by decide) (by decide) (by decide)⟩

theorem castUInt16_of_le (n : Nat) (h : n ≤ 65535) : castUInt16 (n : Int) = n := by
  unfold castUInt16
  have : ((n : Int) % 65536) = (n : Int) := Int.emod_eq_of_lt (by omega) (by omega)
  rw [this]
  simp

theorem parse_createPeerInfo (ip : Str) (port : Nat) :
    parse (createPeerInfo ip port) = (.PEER_INFO, ip ++ ':' :: to_string port) := by
  have hne : ip ++ ':' :: to_string port ≠ [] := by simp
  simp only [createPeerInfo, serialize, hne, ne_eq, not_false_eq_true, if_true]
  rw [parse_append_colon _ _ (commandToString_no_colon _), stringToCommand_commandToString]

/-- C4. Round trip of the peer information: for an `ip` without a colon and a port in
0..65535, parsing `createPeerInfo(ip, port)` gives the command `PEER_INFO` with the
payload `ip:port`, and `parsePeerInfo` of that payload gives back `(ip, port)`. -/
theorem createPeerInfo_roundtrip (ip : Str) (port : Nat) (hip : ':' ∉ ip)
    (hport : port ≤ 65535) :
    parse (createPeerInfo ip port) = (.PEER_INFO, ip ++ ':' :: to_string port) ∧
      parsePeerInfo (ip ++ ':' :: to_string port) = .ok (ip, port) := by
  refine ⟨parse_createPeerInfo ip port, ?_⟩
  rw [parsePeerInfo_append ip _ hip, stoi_to_string port (by omega)]
  simp [castUInt16_of_le port hport]

/-- C4, at the address 10.0.0.1:8080. -/
theorem createPeerInfo_roundtrip_witness :
    parse (createPeerInfo "10.0.0.1".toList 8080)
        = (.PEER_INFO, "10.0.0.1".toList ++ ':' :: to_string 8080) ∧
      parsePeerInfo ("10.0.0.1".toList ++ ':' :: to_string 8080)
        = .ok ("10.0.0.1".toList, 8080) :=
  createPeerInfo_roundtrip "10.0.0.1".toList 8080 (by decide) (by decide)

end network

namespace network

/-! ## The key order and the map -/

theorem char_eq_of_toNat_eq (a b : Char) (h : a.toNat = b.toNat) : a = b := by
  have := congrArg Char.ofNat h
  simpa [Char.ofNat_toNat] using this

theorem strLt_irrefl (a : Str) : strLt a a = false := by
  induction a with
  | nil => rfl
  | cons x xs ih => simp [strLt, ih]

theorem strLt_asymm : ∀ a b : Str, strLt a b = true → strLt b a = false
  | [], [], h => by simp [strLt] at h
  | [], _ :: _, _ => by simp [strLt]
  | _ :: _, [], h => by simp [strLt] at h
  | x :: xs, y :: ys, h => by
      simp only [strLt] at h ⊢
      by_cases h1 : x.toNat < y.toNat
      · have h2 : ¬ y.toNat < x.toNat := by omega
        simp [h2, h1]
      · by_cases h2 : y.toNat < x.toNat
        · simp [h1, h2] at h
        · simp only [h1, h2, if_false] at h ⊢
          exact strLt_asymm xs ys h

theorem strLt_trans : ∀ a b c : Str, strLt a b = true → strLt b c = true → strLt a c = true
  | [], [], _, h, _ => by simp [strLt] at h
  | [], _ :: _, [], _, h => by simp [strLt] at h
  | [], _ :: _, _ :: _, _, _ => by simp [strLt]
  | _ :: _, [], _, h, _ => by simp [strLt] at h
  | _ :: _, _ :: _, [], _, h => by simp [strLt] at h
  | x :: xs, y :: ys, z :: zs, h1, h2 => by
      simp only [strLt] at h1 h2 ⊢
      by_cases hxy : x.toNat < y.toNat
      · by_cases hyz : y.toNat < z.toNat
        · have : x.toNat < z.toNat := by omega
          simp [this]
        · by_cases hzy : z.toNat < y.toNat
          · simp [hyz, hzy] at h2
          · have : x.toNat < z.toNat := by omega
            simp [this]
      · by_cases hyx : y.toNat < x.toNat
        · simp [hxy, hyx] at h1
        · simp only [hxy, hyx, if_false] at h1
          by_cases hyz : y.toNat < z.toNat
          · have : x.toNat < z.toNat := by omega
            simp [this]
          · by_cases hzy : z.toNat < y.toNat
            · simp [hyz, hzy] at h2
            · simp only [hyz, hzy, if_false] at h2
              have e1 : ¬ x.toNat < z.toNat := by omega
              have e2 : ¬ z.toNat < x.toNat := by omega
              simp only [e1, e2, if_false]
              exact strLt_trans xs ys zs h1 h2

theorem strLt_total : ∀ a b : Str, strLt a b = false → strLt b a = false → a = b
  | [], [], _, _ => rfl
  | [], _ :: _, h, _ => by simp [strLt] at h
  | _ :: _, [], _, h => by simp [strLt] at h
  | x :: xs, y :: ys, h1, h2 => by
      simp only [strLt] at h1 h2
      by_cases hxy : x.toNat < y.toNat
      · simp [hxy] at h1
      · by_cases hyx : y.toNat < x.toNat
        · simp [hyx] at h2
        · simp only [hxy, hyx, if_false] at h1 h2
          have e : x = y := char_eq_of_toNat_eq x y (by omega)
          rw [e, strLt_total xs ys h1 h2]

theorem strLt_ne (a b : Str) (h : strLt a b = true) : a ≠ b := by
  intro e
  subst e
  rw [strLt_irrefl] at h
  exact Bool.false_ne_true h

namespace PeerMap

theorem Ordered.tail {e : Str × PeerInfo} {m : PeerMap} (h : Ordered (e :: m)) : Ordered m := by
  cases m with
  | nil => trivial
  | cons e2 rest =>
      obtain ⟨k1, v1⟩ := e
      obtain ⟨k2, v2⟩ := e2
      exact h.2

theorem Ordered.head_lt {k : Str} {v : PeerInfo} {m : PeerMap} (h : Ordered ((k, v) :: m)) :
    ∀ k2 ∈ keys m, strLt k k2 = true := by
  induction m generalizing k v with
  | nil => intro k2 hk2; simp [keys] at hk2
  | cons e rest ih =>
      obtain ⟨ke, ve⟩ := e
      intro k2 hk2
      have h1 : strLt k ke = true := h.1
      simp only [keys, List.map_cons, List.mem_cons] at hk2
      rcases hk2 with hk2 | hk2
      · rw [hk2]; exact h1
      · have h3 := ih h.2 k2 (by simpa [keys] using hk2)
        exact strLt_trans _ _ _ h1 h3

theorem Ordered.cons {k : Str} {v : PeerInfo} {m : PeerMap} (hm : Ordered m)
    (hk : ∀ k2 ∈ keys m, strLt k k2 = true) : Ordered ((k, v) :: m) := by
  cases m with
  | nil => trivial
  | cons e rest =>
      obtain ⟨ke, ve⟩ := e
      exact ⟨hk ke (by simp [keys]), hm⟩

theorem keys_assign (key : Str) (value : PeerInfo) (m : PeerMap) :
    ∀ k, k ∈ keys (assign key value m) ↔ k = key ∨ k ∈ keys m := by
  induction m with
  | nil => intro k; simp [assign, keys]
  | cons e rest ih =>
      obtain ⟨ke, ve⟩ := e
      intro k
      simp only [assign]
      by_cases h1 : strLt key ke = true
      · simp [h1, keys]
      · by_cases h2 : strLt ke key = true
        · have hk := ih k
          rw [if_neg h1, if_pos h2]
          simp only [keys, List.map_cons, List.mem_cons] at hk ⊢
          rw [hk]
          tauto
        · have e : key = ke := strLt_total _ _ (by simpa using h1) (by simpa using h2)
          subst e
          simp [h1, keys]

theorem assign_ordered (key : Str) (value : PeerInfo) (m : PeerMap) (h : Ordered m) :
    Ordered (assign key value m) := by
  induction m with
  | nil => trivial
  | cons e rest ih =>
      obtain ⟨ke, ve⟩ := e
      simp only [assign]
      by_cases h1 : strLt key ke = true
      · simp only [h1, if_true]
        exact ⟨h1, h⟩
      · by_cases h2 : strLt ke key = true
        · simp only [h1, h2, if_true, if_false]
          apply Ordered.cons (ih h.tail)
          intro k2 hk2
          rcases (keys_assign key value rest k2).mp hk2 with hk | hk
          · rw [hk]; exact h2
          · exact h.head_lt k2 hk
        · simp only [h1, h2, if_false]
          exact Ordered.cons h.tail h.head_lt

theorem lookup_assign_self (key : Str) (value : PeerInfo) (m : PeerMap) :
    lookup key (assign key value m) = some value := by
  induction m with
  | nil => simp [assign, lookup]
  | cons e rest ih =>
      obtain ⟨ke, ve⟩ := e
      simp only [assign]
      by_cases h1 : strLt key ke = true
      · simp [h1, lookup]
      · by_cases h2 : strLt ke key = true
        · have hne : ke ≠ key := strLt_ne _ _ h2
          simp [h1, h2, lookup, hne, ih]
        · have e : key = ke := strLt_total _ _ (by simpa using h1) (by simpa using h2)
          subst e
          simp [h1, lookup]

theorem lookup_assign_other (key k : Str) (value : PeerInfo) (m : PeerMap) (hk : k ≠ key) :
    lookup k (assign key value m) = lookup k m := by
  induction m with
  | nil => simp [assign, lookup, Ne.symm hk]
  | cons e rest ih =>
      obtain ⟨ke, ve⟩ := e
      simp only [assign]
      by_cases h1 : strLt key ke = true
      · simp [h1, lookup, Ne.symm hk]
      · by_cases h2 : strLt ke key = true
        · simp [h1, h2, lookup, ih]
        · have e : key = ke := strLt_total _ _ (by simpa using h1) (by simpa using h2)
          subst e
          simp [h1, lookup, Ne.symm hk]

theorem lookup_isSome_iff (k : Str) (m : PeerMap) : (lookup k m).isSome = true ↔ k ∈ keys m := by
  induction m with
  | nil => simp [lookup, keys]
  | cons e rest ih =>
      obtain ⟨ke, ve⟩ := e
      by_cases h : ke = k
      · simp [lookup, keys, h]
      · have h' : ¬ k = ke := fun e => h e.symm
        simp only [keys] at ih
        simp [lookup, keys, h, h', ih]

theorem assign_keys_of_mem (key : Str) (value : PeerInfo) (m : PeerMap) (h : Ordered m)
    (hk : key ∈ keys m) : keys (assign key value m) = keys m := by
  induction m with
  | nil => simp [keys] at hk
  | cons e rest ih =>
      obtain ⟨ke, ve⟩ := e
      simp only [assign]
      by_cases h1 : strLt key ke = true
      · exfalso
        simp only [keys, List.map_cons, List.mem_cons] at hk
        rcases hk with hk | hk
        · exact strLt_ne _ _ h1 hk
        · have := h.head_lt key (by simpa [keys] using hk)
          rw [strLt_asymm _ _ h1] at this
          exact Bool.false_ne_true this
      · by_cases h2 : strLt ke key = true
        · have hmem : key ∈ keys rest := by
            simp only [keys, List.map_cons, List.mem_cons] at hk
            rcases hk with hk | hk
            · exact absurd hk.symm (strLt_ne _ _ h2)
            · simpa [keys] using hk
          have := ih h.tail hmem
          simp only [keys] at this
          simp [h1, h2, keys, this]
        · simp [h1, h2, keys]

end PeerMap

end network

namespace network

open Protocol PeerMap RendezvousServer

/-! ## Registration -/

theorem length_eq_of_keys_eq (m m2 : PeerMap) (h : keys m = keys m2) : m.length = m2.length := by
  have := congrArg List.length h
  simpa [keys] using this

/-- C9. Re-registration: when the registry already holds the id `X` and a REGISTER has
the derived id `X`, `processRegister` leaves the number of entries and the ids as they
were, the entry of `X` holds the new sender's ip and port, and the entry of every other
id is unchanged. -/
theorem processRegister_reregister (self : RendezvousServer) (data ip : Str) (port : Nat)
    (X : Str) (hord : Ordered self.peers_) (hX : X ∈ keys self.peers_)
    (hid : client_id data ip port = X) :
    (processRegister self data ip port).2.peers_.length = self.peers_.length ∧
      keys (processRegister self data ip port).2.peers_ = keys self.peers_ ∧
      lookup X (processRegister self data ip port).2.peers_
        = some { ip := ip, port := port, id := X } ∧
      ∀ k, k ≠ X →
        lookup k (processRegister self data ip port).2.peers_ = lookup k self.peers_ := by
  have hk := assign_keys_of_mem X { ip := ip, port := port, id := X } self.peers_ hord hX
  simp only [processRegister, hid]
  exact ⟨length_eq_of_keys_eq _ _ hk, hk, lookup_assign_self _ _ _,
    fun k hne => lookup_assign_other _ _ _ _ hne⟩

/-- C9, at a registry holding the ids "x" and "y", for a REGISTER:x that arrives from
10.0.0.9:9. -/
theorem processRegister_reregister_witness :
    (processRegister
        { peers_ := [("x".toList, { ip := "10.0.0.1".toList, port := 1000, id := "x".toList }),
                     ("y".toList, { ip := "10.0.0.2".toList, port := 2000, id := "y".toList })] }
        "x".toList "10.0.0.9".toList 9).2.peers_
      = [("x".toList, { ip := "10.0.0.9".toList, port := 9, id := "x".toList }),
         ("y".toList, { ip := "10.0.0.2".toList, port := 2000, id := "y".toList })] ∧
    (processRegister
        { peers_ := [("x".toList, { ip := "10.0.0.1".toList, port := 1000, id := "x".toList }),
                     ("y".toList, { ip := "10.0.0.2".toList, port := 2000, id := "y".toList })] }
        "x".toList "10.0.0.9".toList 9).2.peers_.length = 2 :=
  ⟨by decide,
    (processRegister_reregister
      { peers_ := [("x".toList, { ip := "10.0.0.1".toList, port := 1000, id := "x".toList }),
                   ("y".toList, { ip := "10.0.0.2".toList, port := 2000, id := "y".toList })] }
      "x".toList "10.0.0.9".toList 9 "x".toList (by decide) (by decide) (by decide)).1⟩

/-- C10. For a REGISTER with payload `p` from `(ip, port)`, `processRegister` answers
"REGISTER:OK" and stores, under the id `p` when `p` is not empty and under the id
`ip:port` (the port in decimal) when it is, an entry holding that ip, port and id. -/
theorem processRegister_stores (self : RendezvousServer) (p ip : Str) (port : Nat) :
    (processRegister self p ip port).1 = "REGISTER:OK".toList ∧
      (p ≠ [] →
        lookup p (processRegister self p ip port).2.peers_
          = some { ip := ip, port := port, id := p }) ∧
      (p = [] →
        lookup (ip ++ ':' :: to_string port) (processRegister self p ip port).2.peers_
          = some { ip := ip, port := port, id := ip ++ ':' :: to_string port }) := by
  refine ⟨rfl, ?_, ?_⟩
  · intro hp
    simp only [processRegister, client_id, if_neg hp]
    exact lookup_assign_self _ _ _
  · intro hp
    simp only [processRegister, client_id, if_pos hp]
    exact lookup_assign_self _ _ _

/-- C10, at a REGISTER:alice and at a REGISTER without payload, both from
10.0.0.1:8080. -/
theorem processRegister_stores_witness :
    lookup "alice".toList
        (processRegister { peers_ := [] } "alice".toList "10.0.0.1".toList 8080).2.peers_
      = some { ip := "10.0.0.1".toList, port := 8080, id := "alice".toList } ∧
    lookup ("10.0.0.1".toList ++ ':' :: to_string 8080)
        (processRegister { peers_ := [] } [] "10.0.0.1".toList 8080).2.peers_
      = some { ip := "10.0.0.1".toList, port := 8080,
               id := "10.0.0.1".toList ++ ':' :: to_string 8080 } :=
  ⟨(processRegister_stores { peers_ := [] } "alice".toList "10.0.0.1".toList 8080).2.1 (by decide),
    (processRegister_stores { peers_ := [] } [] "10.0.0.1".toList 8080).2.2 rfl⟩

/-! ## Pairing -/

theorem matchPeers_cons_cons (net : Transport) (socket : SocketWrapper)
    (k1 k2 : Str) (p1 p2 : PeerInfo) (rest : PeerMap) :
    matchPeers net { peers_ := (k1, p1) :: (k2, p2) :: rest } socket =
      if net socket.attempts.length (peerInfoFor p1 p2) = true then
        if net (socket.attempts.length + 1) (peerInfoFor p2 p1) = true then
          ({ peers_ := [] },
            { attempts := socket.attempts ++
                [(peerInfoFor p1 p2, true), (peerInfoFor p2 p1, true)] })
        else
          ({ peers_ := (k1, p1) :: (k2, p2) :: rest },
            { attempts := socket.attempts ++
                [(peerInfoFor p1 p2, true), (peerInfoFor p2 p1, false)] })
      else
        ({ peers_ := (k1, p1) :: (k2, p2) :: rest },
          { attempts := socket.attempts ++ [(peerInfoFor p1 p2, false)] }) := by
  have hlen : ¬ ((k1, p1) :: (k2, p2) :: rest).length < 2 := by simp
  simp only [matchPeers, hlen, if_false, SocketWrapper.sendto, peerInfoFor]
  cases h1 : net socket.attempts.length
      { data := createPeerInfo p2.ip p2.port, ip := p1.ip, port := p1.port }
  · simp
  · cases h2 : net (socket.attempts.length + 1)
        { data := createPeerInfo p1.ip p1.port, ip := p2.ip, port := p2.port }
    · simp [h2]
    · simp [h2]

/-- C7, at a registry of two entries "a" and "b": when the first `sendto` throws, no
second send is attempted and the registry is not cleared; when the second throws, the
registry is not cleared either. -/
theorem matchPeers_failed_send_keeps_registry :
    matchPeers (failsAt 0)
        { peers_ := [("a".toList, { ip := "10.0.0.1".toList, port := 1000, id := "a".toList }),
                     ("b".toList, { ip := "10.0.0.2".toList, port := 2000, id := "b".toList })] }
        { attempts := [] }
      = ({ peers_ := [("a".toList, { ip := "10.0.0.1".toList, port := 1000, id := "a".toList }),
                      ("b".toList, { ip := "10.0.0.2".toList, port := 2000, id := "b".toList })] },
         { attempts := [({ data := "PEER_INFO:10.0.0.2:2000".toList, ip := "10.0.0.1".toList,
                           port := 1000 }, false)] }) ∧
    (matchPeers (failsAt 1)
        { peers_ := [("a".toList, { ip := "10.0.0.1".toList, port := 1000, id := "a".toList }),
                     ("b".toList, { ip := "10.0.0.2".toList, port := 2000, id := "b".toList })] }
        { attempts := [] }).1.peers_.length = 2 := by
  decide

/-- C7 (amended). On a registry with at least two entries `matchPeers` always attempts
the first PEER_INFO send; it attempts the second one exactly when the first succeeded;
and it clears the whole registry exactly when both succeeded, leaving it unchanged
otherwise. -/
theorem matchPeers_send_outcomes (net : Transport) (socket : SocketWrapper)
    (k1 k2 : Str) (p1 p2 : PeerInfo) (rest : PeerMap) :
    (net socket.attempts.length (peerInfoFor p1 p2) = false →
      matchPeers net { peers_ := (k1, p1) :: (k2, p2) :: rest } socket
        = ({ peers_ := (k1, p1) :: (k2, p2) :: rest },
           { attempts := socket.attempts ++ [(peerInfoFor p1 p2, false)] })) ∧
    (net socket.attempts.length (peerInfoFor p1 p2) = true →
      net (socket.attempts.length + 1) (peerInfoFor p2 p1) = false →
      matchPeers net { peers_ := (k1, p1) :: (k2, p2) :: rest } socket
        = ({ peers_ := (k1, p1) :: (k2, p2) :: rest },
           { attempts := socket.attempts ++
               [(peerInfoFor p1 p2, true), (peerInfoFor p2 p1, false)] })) ∧
    (net socket.attempts.length (peerInfoFor p1 p2) = true →
      net (socket.attempts.length + 1) (peerInfoFor p2 p1) = true →
      matchPeers net { peers_ := (k1, p1) :: (k2, p2) :: rest } socket
        = ({ peers_ := [] },
           { attempts := socket.attempts ++
               [(peerInfoFor p1 p2, true), (peerInfoFor p2 p1, true)] })) := by
  rw [matchPeers_cons_cons]
  refine ⟨?_, ?_, ?_⟩
  · intro h1
    simp [h1]
  · intro h1 h2
    simp [h1, h2]
  · intro h1 h2
    simp [h1, h2]

/-- C7 (amended), at a registry of two entries "a" and "b": with the first send failing,
with the second send failing, and with both succeeding. -/
theorem matchPeers_send_outcomes_witness :
    matchPeers (failsAt 0)
        { peers_ := [("a".toList, { ip := "10.0.0.1".toList, port := 1000, id := "a".toList }),
                     ("b".toList, { ip := "10.0.0.2".toList, port := 2000, id := "b".toList })] }
        { attempts := [] }
      = ({ peers_ := [("a".toList, { ip := "10.0.0.1".toList, port := 1000, id := "a".toList }),
                      ("b".toList, { ip := "10.0.0.2".toList, port := 2000, id := "b".toList })] },
         { attempts := [] ++
            [(peerInfoFor { ip := "10.0.0.1".toList, port := 1000, id := "a".toList }
                { ip := "10.0.0.2".toList, port := 2000, id := "b".toList }, false)] }) ∧
    matchPeers (failsAt 1)
        { peers_ := [("a".toList, { ip := "10.0.0.1".toList, port := 1000, id := "a".toList }),
                     ("b".toList, { ip := "10.0.0.2".toList, port := 2000, id := "b".toList })] }
        { attempts := [] }
      = ({ peers_ := [("a".toList, { ip := "10.0.0.1".toList, port := 1000, id := "a".toList }),
                      ("b".toList, { ip := "10.0.0.2".toList, port := 2000, id := "b".toList })] },
         { attempts := [] ++
            [(peerInfoFor { ip := "10.0.0.1".toList, port := 1000, id := "a".toList }
                { ip := "10.0.0.2".toList, port := 2000, id := "b".toList }, true),
             (peerInfoFor { ip := "10.0.0.2".toList, port := 2000, id := "b".toList }
                { ip := "10.0.0.1".toList, port := 1000, id := "a".toList }, false)] }) ∧
    matchPeers allSendsSucceed
        { peers_ := [("a".toList, { ip := "10.0.0.1".toList, port := 1000, id := "a".toList }),
                     ("b".toList, { ip := "10.0.0.2".toList, port := 2000, id := "b".toList })] }
        { attempts := [] }
      = ({ peers_ := [] },
         { attempts := [] ++
            [(peerInfoFor { ip := "10.0.0.1".toList, port := 1000, id := "a".toList }
                { ip := "10.0.0.2".toList, port := 2000, id := "b".toList }, true),
             (peerInfoFor { ip := "10.0.0.2".toList, port := 2000, id := "b".toList }
                { ip := "10.0.0.1".toList, port := 1000, id := "a".toList }, true)] }) :=
  ⟨(matchPeers_send_outcomes (failsAt 0) { attempts := [] } "a".toList "b".toList
      { ip := "10.0.0.1".toList, port := 1000, id := "a".toList }
      { ip := "10.0.0.2".toList, port := 2000, id := "b".toList } []).1 (by decide),
    (matchPeers_send_outcomes (failsAt 1) { attempts := [] } "a".toList "b".toList
      { ip := "10.0.0.1".toList, port := 1000, id := "a".toList }
      { ip := "10.0.0.2".toList, port := 2000, id := "b".toList } []).2.1 (by decide) (by decide),
    (matchPeers_send_outcomes allSendsSucceed { attempts := [] } "a".toList "b".toList
      { ip := "10.0.0.1".toList, port := 1000, id := "a".toList }
      { ip := "10.0.0.2".toList, port := 2000, id := "b".toList } []).2.2 rfl rfl⟩

end network

namespace network

open Protocol PeerMap RendezvousServer

theorem assign_comm (k k2 : Str) (v v2 : PeerInfo) (m : PeerMap) (hne : k ≠ k2) :
    assign k v (assign k2 v2 m) = assign k2 v2 (assign k v m) := by
  have hkk : strLt k k2 = true ∨ strLt k2 k = true := by
    by_contra hc
    simp only [not_or, Bool.not_eq_true] at hc
    exact hne (strLt_total _ _ hc.1 hc.2)
  induction m with
  | nil =>
      rcases hkk with h | h
      · have h' := strLt_asymm _ _ h
        simp [assign, h, h']
      · have h' := strLt_asymm _ _ h
        simp [assign, h, h']
  | cons e rest ih =>
      obtain ⟨a, va⟩ := e
      have t1 : strLt k a = true → strLt a k = false := strLt_asymm _ _
      have t2 : strLt k2 a = true → strLt a k2 = false := strLt_asymm _ _
      have t3 : strLt a k = true → strLt k a = false := strLt_asymm _ _
      have t4 : strLt a k2 = true → strLt k2 a = false := strLt_asymm _ _
      have t5 : strLt k k2 = true → strLt k2 k = false := strLt_asymm _ _
      have t6 : strLt k2 k = true → strLt k k2 = false := strLt_asymm _ _
      have u1 : strLt k a = false → strLt a k = false → k = a := strLt_total _ _
      have u2 : strLt k2 a = false → strLt a k2 = false → k2 = a := strLt_total _ _
      have w1 : strLt k k2 = true → strLt k2 a = true → strLt k a = true := strLt_trans _ _ _
      have w2 : strLt k2 k = true → strLt k a = true → strLt k2 a = true := strLt_trans _ _ _
      have w3 : strLt a k = true → strLt k k2 = true → strLt a k2 = true := strLt_trans _ _ _
      have w4 : strLt a k2 = true → strLt k2 k = true → strLt a k = true := strLt_trans _ _ _
      have w5 : strLt k a = true → strLt a k2 = true → strLt k k2 = true := strLt_trans _ _ _
      have w6 : strLt k2 a = true → strLt a k = true → strLt k2 k = true := strLt_trans _ _ _
      cases hka : strLt k a <;> cases hak : strLt a k <;> cases hk2a : strLt k2 a <;>
        cases hak2 : strLt a k2 <;> cases hkk2 : strLt k k2 <;> cases hk2k : strLt k2 k <;>
        simp_all [assign]

end network

namespace network

open Protocol PeerMap RendezvousServer

theorem append_cons_cancel (c : Char) : ∀ (x y a b : Str), c ∉ x → c ∉ y →
    a ++ c :: x = b ++ c :: y → a = b ∧ x = y := by
  intro x y a b hx hy h
  have hr := congrArg List.reverse h
  simp only [List.reverse_append, List.reverse_cons, List.append_assoc,
    List.singleton_append] at hr
  have key : ∀ (u w s t : Str), c ∉ u → c ∉ w → u ++ c :: s = w ++ c :: t → u = w ∧ s = t := by
    intro u
    induction u with
    | nil =>
        intro w s t _ hw e
        cases w with
        | nil => simpa using e
        | cons w0 ws =>
            simp only [List.nil_append, List.cons_append, List.cons.injEq] at e
            exact absurd (by simp [e.1]) hw
    | cons u0 us ih =>
        intro w s t hu hw e
        cases w with
        | nil =>
            simp only [List.nil_append, List.cons_append, List.cons.injEq] at e
            exact absurd (by simp [e.1]) hu
        | cons w0 ws =>
            simp only [List.cons_append, List.cons.injEq] at e
            obtain ⟨e1, e2⟩ := ih ws s t (fun m => hu (List.mem_cons_of_mem _ m))
              (fun m => hw (List.mem_cons_of_mem _ m)) e.2
            exact ⟨by rw [e.1, e1], e2⟩
  obtain ⟨e1, e2⟩ := key x.reverse y.reverse a.reverse b.reverse (by simpa using hx)
    (by simpa using hy) hr
  exact ⟨List.reverse_injective e2, List.reverse_injective e1⟩

theorem to_string_no_colon (n : Nat) : ':' ∉ to_string n := by
  intro h
  exact isdigit_ne_colon _ ((to_string_spec n).2.1 _ h) rfl

theorem to_string_injective (a b : Nat) (h : to_string a = to_string b) : a = b := by
  have ha := (to_string_spec a).2.2
  have hb := (to_string_spec b).2.2
  rw [h] at ha
  omega

/-- Two senders that give no id are stored under different ids unless they are the same
address. -/
theorem client_id_default_injective (ip1 ip2 : Str) (port1 port2 : Nat)
    (h : client_id [] ip1 port1 = client_id [] ip2 port2) : ip1 = ip2 ∧ port1 = port2 := by
  simp only [client_id, if_true] at h
  obtain ⟨e1, e2⟩ := append_cons_cancel ':' _ _ _ _ (to_string_no_colon port1)
    (to_string_no_colon port2) h
  exact ⟨e1, to_string_injective _ _ e2⟩

theorem handleClient_register (net : Transport) (self : RendezvousServer)
    (socket : SocketWrapper) (message ip : Str) (port : Nat)
    (h : (parse message).1 = .REGISTER) :
    handleClient net self socket message ip port =
      if (processRegister self (parse message).2 ip port).2.peers_.length ≥ 2 then
        ((matchPeers net (processRegister self (parse message).2 ip port).2 socket).1,
          ((matchPeers net (processRegister self (parse message).2 ip port).2 socket).2.sendto
            net "REGISTER:OK".toList ip port).2)
      else
        ((processRegister self (parse message).2 ip port).2,
          (socket.sendto net "REGISTER:OK".toList ip port).2) := by
  have hne : ("REGISTER:OK".toList : Str) ≠ [] := by decide
  have hresp : ∀ d, (processRegister self d ip port).1 = "REGISTER:OK".toList := fun _ => rfl
  unfold handleClient
  cases hp : parse message with
  | mk cmd data =>
      rw [hp] at h
      simp only at h
      subst h
      by_cases hl : (processRegister self data ip port).2.peers_.length ≥ 2
      · simp only [hl, if_true]
        simp [hresp, hne]
      · simp only [hl, if_false]
        simp [hresp, hne]

end network

namespace network

open Protocol PeerMap RendezvousServer

theorem sendto_of_all_succeed (net : Transport) (hnet : ∀ i d, net i d = true)
    (socket : SocketWrapper) (data ip : Str) (port : Nat) :
    (socket.sendto net data ip port).2
      = { attempts := socket.attempts ++ [({ data := data, ip := ip, port := port }, true)] } := by
  simp [SocketWrapper.sendto, hnet]

theorem matchPeers_of_all_succeed (net : Transport) (hnet : ∀ i d, net i d = true)
    (socket : SocketWrapper) (k1 k2 : Str) (p1 p2 : PeerInfo) (rest : PeerMap) :
    matchPeers net { peers_ := (k1, p1) :: (k2, p2) :: rest } socket
      = ({ peers_ := [] },
         { attempts := socket.attempts ++
             [(peerInfoFor p1 p2, true), (peerInfoFor p2 p1, true)] }) := by
  rw [matchPeers_cons_cons]
  simp [hnet]

theorem two_registers_attempts (net : Transport) (hnet : ∀ i d, net i d = true)
    (socket : SocketWrapper) (m1 m2 ip1 ip2 : Str) (port1 port2 : Nat)
    (h1 : (parse m1).1 = .REGISTER) (h2 : (parse m2).1 = .REGISTER)
    (hne : client_id (parse m1).2 ip1 port1 ≠ client_id (parse m2).2 ip2 port2) :
    (handleClient net { peers_ := [] } socket m1 ip1 port1).2.attempts
        = socket.attempts ++ [(registerOkTo ip1 port1, true)] ∧
    ((handleClient net (handleClient net { peers_ := [] } socket m1 ip1 port1).1
          (handleClient net { peers_ := [] } socket m1 ip1 port1).2 m2 ip2 port2).2.attempts
        = socket.attempts ++ [(registerOkTo ip1 port1, true)] ++
            [({ data := createPeerInfo ip2 port2, ip := ip1, port := port1 }, true),
             ({ data := createPeerInfo ip1 port1, ip := ip2, port := port2 }, true),
             (registerOkTo ip2 port2, true)] ∨
      (handleClient net (handleClient net { peers_ := [] } socket m1 ip1 port1).1
          (handleClient net { peers_ := [] } socket m1 ip1 port1).2 m2 ip2 port2).2.attempts
        = socket.attempts ++ [(registerOkTo ip1 port1, true)] ++
            [({ data := createPeerInfo ip1 port1, ip := ip2, port := port2 }, true),
             ({ data := createPeerInfo ip2 port2, ip := ip1, port := port1 }, true),
             (registerOkTo ip2 port2, true)]) ∧
    (handleClient net (handleClient net { peers_ := [] } socket m1 ip1 port1).1
        (handleClient net { peers_ := [] } socket m1 ip1 port1).2 m2 ip2 port2).1.peers_
      = [] := by
  have hfirst : handleClient net { peers_ := [] } socket m1 ip1 port1
      = ({ peers_ := [(client_id (parse m1).2 ip1 port1,
            { ip := ip1, port := port1, id := client_id (parse m1).2 ip1 port1 })] },
         { attempts := socket.attempts ++ [(registerOkTo ip1 port1, true)] }) := by
    rw [handleClient_register net _ socket m1 ip1 port1 h1]
    simp [processRegister, assign, sendto_of_all_succeed net hnet, registerOkTo]
  rw [hfirst]
  refine ⟨rfl, ?_⟩
  simp only []
  rw [handleClient_register net _ _ m2 ip2 port2 h2]
  rcases Bool.eq_false_or_eq_true
      (strLt (client_id (parse m2).2 ip2 port2) (client_id (parse m1).2 ip1 port1)) with h21 | h21
  · have hreg : (processRegister
          { peers_ := [(client_id (parse m1).2 ip1 port1,
              { ip := ip1, port := port1, id := client_id (parse m1).2 ip1 port1 })] }
          (parse m2).2 ip2 port2).2
        = { peers_ := [(client_id (parse m2).2 ip2 port2,
              { ip := ip2, port := port2, id := client_id (parse m2).2 ip2 port2 }),
            (client_id (parse m1).2 ip1 port1,
              { ip := ip1, port := port1, id := client_id (parse m1).2 ip1 port1 })] } := by
      simp [processRegister, assign, h21]
    rw [hreg, matchPeers_of_all_succeed net hnet]
    simp [sendto_of_all_succeed net hnet, registerOkTo, peerInfoFor]
  · have h12 : strLt (client_id (parse m1).2 ip1 port1) (client_id (parse m2).2 ip2 port2)
        = true := by
      by_contra hc
      exact hne (strLt_total _ _ (by simpa using hc) h21)
    have hreg : (processRegister
          { peers_ := [(client_id (parse m1).2 ip1 port1,
              { ip := ip1, port := port1, id := client_id (parse m1).2 ip1 port1 })] }
          (parse m2).2 ip2 port2).2
        = { peers_ := [(client_id (parse m1).2 ip1 port1,
              { ip := ip1, port := port1, id := client_id (parse m1).2 ip1 port1 }),
            (client_id (parse m2).2 ip2 port2,
              { ip := ip2, port := port2, id := client_id (parse m2).2 ip2 port2 })] } := by
      simp [processRegister, assign, h21, h12]
    rw [hreg, matchPeers_of_all_succeed net hnet]
    simp [sendto_of_all_succeed net hnet, registerOkTo, peerInfoFor]


/-- C5, at two REGISTER:x datagrams from the distinct senders 10.0.0.1:1000 and
10.0.0.2:2000, all sends succeeding: the second one overwrites the entry "x", each
sender only gets its REGISTER:OK, no PEER_INFO is sent and the registry has one
entry. -/
theorem same_id_registers_do_not_pair :
    handleClient allSendsSucceed
        (handleClient allSendsSucceed { peers_ := [] } { attempts := [] }
          "REGISTER:x".toList "10.0.0.1".toList 1000).1
        (handleClient allSendsSucceed { peers_ := [] } { attempts := [] }
          "REGISTER:x".toList "10.0.0.1".toList 1000).2
        "REGISTER:x".toList "10.0.0.2".toList 2000
      = ({ peers_ := [("x".toList, { ip := "10.0.0.2".toList, port := 2000, id := "x".toList })] },
         { attempts := [(registerOkTo "10.0.0.1".toList 1000, true),
                        (registerOkTo "10.0.0.2".toList 2000, true)] }) := by
  decide

/-- C5 (amended). From an empty registry and with all sends succeeding, take two
REGISTER datagrams that are stored under different ids, as are any two without payload
that come from distinct sender addresses. Handling the first sends only its
REGISTER:OK. Handling the second sends exactly two PEER_INFO datagrams, one to each
sender and each carrying the other sender's ip and port, followed by the REGISTER:OK
of the second sender, and leaves the registry empty. -/
theorem two_registers_pair (net : Transport) (hnet : ∀ i d, net i d = true)
    (socket : SocketWrapper) (m1 m2 ip1 ip2 : Str) (port1 port2 : Nat)
    (h1 : (parse m1).1 = .REGISTER) (h2 : (parse m2).1 = .REGISTER)
    (hid : ((parse m1).2 = [] ∧ (parse m2).2 = [] ∧ (ip1, port1) ≠ (ip2, port2)) ∨
      client_id (parse m1).2 ip1 port1 ≠ client_id (parse m2).2 ip2 port2) :
    (handleClient net { peers_ := [] } socket m1 ip1 port1).2.attempts
        = socket.attempts ++ [(registerOkTo ip1 port1, true)] ∧
    ((handleClient net (handleClient net { peers_ := [] } socket m1 ip1 port1).1
          (handleClient net { peers_ := [] } socket m1 ip1 port1).2 m2 ip2 port2).2.attempts
        = socket.attempts ++ [(registerOkTo ip1 port1, true)] ++
            [({ data := createPeerInfo ip2 port2, ip := ip1, port := port1 }, true),
             ({ data := createPeerInfo ip1 port1, ip := ip2, port := port2 }, true),
             (registerOkTo ip2 port2, true)] ∨
      (handleClient net (handleClient net { peers_ := [] } socket m1 ip1 port1).1
          (handleClient net { peers_ := [] } socket m1 ip1 port1).2 m2 ip2 port2).2.attempts
        = socket.attempts ++ [(registerOkTo ip1 port1, true)] ++
            [({ data := createPeerInfo ip1 port1, ip := ip2, port := port2 }, true),
             ({ data := createPeerInfo ip2 port2, ip := ip1, port := port1 }, true),
             (registerOkTo ip2 port2, true)]) ∧
    (handleClient net (handleClient net { peers_ := [] } socket m1 ip1 port1).1
        (handleClient net { peers_ := [] } socket m1 ip1 port1).2 m2 ip2 port2).1.peers_
      = [] := by
  rcases hid with ⟨e1, e2, hadr⟩ | h
  · apply two_registers_attempts net hnet socket m1 m2 ip1 ip2 port1 port2 h1 h2
    rw [e1, e2]
    intro e
    obtain ⟨a, b⟩ := client_id_default_injective _ _ _ _ e
    exact hadr (by rw [a, b])
  · exact two_registers_attempts net hnet socket m1 m2 ip1 ip2 port1 port2 h1 h2 h

end network

namespace network

open Protocol PeerMap RendezvousServer

/-- C5 (amended), at two REGISTER datagrams without payload from 10.0.0.1:1000 and
10.0.0.2:2000: after the second one the registry is empty. -/
theorem two_registers_pair_witness :
    (handleClient allSendsSucceed
        (handleClient allSendsSucceed { peers_ := [] } { attempts := [] }
          "REGISTER".toList "10.0.0.1".toList 1000).1
        (handleClient allSendsSucceed { peers_ := [] } { attempts := [] }
          "REGISTER".toList "10.0.0.1".toList 1000).2
        "REGISTER".toList "10.0.0.2".toList 2000).1.peers_ = [] :=
  (two_registers_pair allSendsSucceed (fun _ _ => rfl) { attempts := [] }
    "REGISTER".toList "REGISTER".toList "10.0.0.1".toList "10.0.0.2".toList 1000 2000
    (by decide) (by decide) (Or.inl ⟨by decide, by decide, by decide⟩)).2.2

theorem registerAll_cons (self : RendezvousServer) (r : Str × Str × Nat)
    (regs : List (Str × Str × Nat)) :
    registerAll self (r :: regs) = registerAll (processRegister self r.1 r.2.1 r.2.2).2 regs :=
  rfl

theorem registerAll_invariant (regs : List (Str × Str × Nat)) :
    ∀ self : RendezvousServer, Ordered self.peers_ →
      Ordered (registerAll self regs).peers_ ∧
        ∀ k, k ∈ keys (registerAll self regs).peers_ ↔ k ∈ registeredIds regs ∨ k ∈ keys self.peers_ := by
  induction regs with
  | nil => intro self h; simp [registerAll, registeredIds, h]
  | cons r regs ih =>
      intro self h
      rw [registerAll_cons]
      have hord : Ordered (processRegister self r.1 r.2.1 r.2.2).2.peers_ := by
        simp only [processRegister]
        exact assign_ordered _ _ _ h
      obtain ⟨h1, h2⟩ := ih _ hord
      refine ⟨h1, ?_⟩
      intro k
      rw [h2 k]
      simp only [processRegister, keys_assign, registeredIds, List.map_cons, List.mem_cons]
      simp only [registeredIds] at *
      tauto

theorem registerAll_perm (self : RendezvousServer) (regs regs2 : List (Str × Str × Nat))
    (hperm : regs.Perm regs2) (hnd : (registeredIds regs).Nodup) :
    registerAll self regs = registerAll self regs2 := by
  unfold registerAll
  apply List.Perm.foldl_eq' hperm
  intro x hx y hy z
  by_cases hxy : x = y
  · rw [hxy]
  · have hne : client_id x.1 x.2.1 x.2.2 ≠ client_id y.1 y.2.1 y.2.2 := by
      intro e
      exact hxy (List.inj_on_of_nodup_map hnd hx hy e)
    simp only [processRegister]
    rw [assign_comm _ _ _ _ _ (Ne.symm hne)]

/-- C6, at the registry left by registering "b", "a", "c" from 10.0.0.2:2000,
10.0.0.1:1000 and 10.0.0.3:3000, when the first send fails: the only send attempted is
the PEER_INFO for "a"; "b", the second smallest id, is sent nothing. -/
theorem matchPeers_first_send_fails_no_second :
    (matchPeers (failsAt 0)
        (registerAll { peers_ := [] }
          [("b".toList, "10.0.0.2".toList, 2000), ("a".toList, "10.0.0.1".toList, 1000),
           ("c".toList, "10.0.0.3".toList, 3000)])
        { attempts := [] }).2.attempts
      = [({ data := "PEER_INFO:10.0.0.2:2000".toList, ip := "10.0.0.1".toList, port := 1000 },
           false)] := by
  decide

/-- C6 (amended). On a registry with at least two entries `matchPeers` pairs the entries
with the smallest and the second smallest id in the lexicographic order: the first
PEER_INFO goes to the smallest id and carries the address of the second smallest, and
the second PEER_INFO, attempted once the first send has succeeded, goes to the second
smallest and carries the address of the smallest. The registry does not depend on the
order of the registrations: it is ordered by id and holds exactly the registered ids.
With working sends, registering "b", "a", "c" in that order pairs "a" with "b", and "c"
receives no PEER_INFO. -/
theorem matchPeers_pairs_two_smallest :
    (∀ (net : Transport) (self : RendezvousServer) (socket : SocketWrapper),
      Ordered self.peers_ → 2 ≤ self.peers_.length →
      ∃ k1 p1 k2 p2 rest, self.peers_ = (k1, p1) :: (k2, p2) :: rest ∧
        strLt k1 k2 = true ∧ (∀ k ∈ keys rest, strLt k2 k = true) ∧
        (matchPeers net self socket).2.attempts
          = socket.attempts ++
              (peerInfoFor p1 p2, net socket.attempts.length (peerInfoFor p1 p2)) ::
                (if net socket.attempts.length (peerInfoFor p1 p2) = true then
                  [(peerInfoFor p2 p1, net (socket.attempts.length + 1) (peerInfoFor p2 p1))]
                else [])) ∧
    (∀ regs regs2 : List (Str × Str × Nat), regs.Perm regs2 → (registeredIds regs).Nodup →
      registerAll { peers_ := [] } regs = registerAll { peers_ := [] } regs2) ∧
    (∀ regs : List (Str × Str × Nat),
      Ordered (registerAll { peers_ := [] } regs).peers_ ∧
        ∀ k, k ∈ keys (registerAll { peers_ := [] } regs).peers_ ↔ k ∈ registeredIds regs) ∧
    matchPeers allSendsSucceed
        (registerAll { peers_ := [] }
          [("b".toList, "10.0.0.2".toList, 2000), ("a".toList, "10.0.0.1".toList, 1000),
           ("c".toList, "10.0.0.3".toList, 3000)])
        { attempts := [] }
      = ({ peers_ := [] },
         { attempts :=
            [({ data := "PEER_INFO:10.0.0.2:2000".toList, ip := "10.0.0.1".toList, port := 1000 },
               true),
             ({ data := "PEER_INFO:10.0.0.1:1000".toList, ip := "10.0.0.2".toList, port := 2000 },
               true)] }) ∧
    (run allSendsSucceed { peers_ := [] } { attempts := [] }
        [("REGISTER:b".toList, "10.0.0.2".toList, 2000),
         ("REGISTER:a".toList, "10.0.0.1".toList, 1000),
         ("REGISTER:c".toList, "10.0.0.3".toList, 3000)]).2.delivered
      = [registerOkTo "10.0.0.2".toList 2000,
         { data := "PEER_INFO:10.0.0.2:2000".toList, ip := "10.0.0.1".toList, port := 1000 },
         { data := "PEER_INFO:10.0.0.1:1000".toList, ip := "10.0.0.2".toList, port := 2000 },
         registerOkTo "10.0.0.1".toList 1000,
         registerOkTo "10.0.0.3".toList 3000] := by
  refine ⟨?_, ?_, ?_, by decide, by decide⟩
  · intro net self socket hord hlen
    obtain ⟨peers⟩ := self
    cases peers with
    | nil => simp at hlen
    | cons e1 t =>
        cases t with
        | nil => simp at hlen
        | cons e2 rest =>
            obtain ⟨k1, p1⟩ := e1
            obtain ⟨k2, p2⟩ := e2
            refine ⟨k1, p1, k2, p2, rest, rfl, hord.1, hord.tail.head_lt, ?_⟩
            rw [matchPeers_cons_cons]
            cases h1 : net socket.attempts.length (peerInfoFor p1 p2)
            · simp
            · cases h2 : net (socket.attempts.length + 1) (peerInfoFor p2 p1)
              · simp
              · simp
  · intro regs regs2 hperm hnd
    exact registerAll_perm _ regs regs2 hperm hnd
  · intro regs
    obtain ⟨h1, h2⟩ := registerAll_invariant regs { peers_ := [] } trivial
    refine ⟨h1, fun k => ?_⟩
    rw [h2 k]
    simp [keys]

/-- C6 (amended), at the registry that holds "a", "b" and "c", with a network whose
first send fails, and at the registrations "b", "a", "c" against "a", "b", "c". -/
theorem matchPeers_pairs_two_smallest_witness :
    (∃ k1 p1 k2 p2 rest,
      (registerAll { peers_ := [] }
          [("b".toList, "10.0.0.2".toList, 2000), ("a".toList, "10.0.0.1".toList, 1000),
           ("c".toList, "10.0.0.3".toList, 3000)]).peers_ = (k1, p1) :: (k2, p2) :: rest ∧
        strLt k1 k2 = true ∧ (∀ k ∈ keys rest, strLt k2 k = true) ∧
        (matchPeers (failsAt 0)
            (registerAll { peers_ := [] }
              [("b".toList, "10.0.0.2".toList, 2000), ("a".toList, "10.0.0.1".toList, 1000),
               ("c".toList, "10.0.0.3".toList, 3000)])
            { attempts := [] }).2.attempts
          = [] ++
              (peerInfoFor p1 p2, failsAt 0 0 (peerInfoFor p1 p2)) ::
                (if failsAt 0 0 (peerInfoFor p1 p2) = true then
                  [(peerInfoFor p2 p1, failsAt 0 (0 + 1) (peerInfoFor p2 p1))]
                else [])) ∧
    registerAll { peers_ := [] }
        [("b".toList, "10.0.0.2".toList, 2000), ("a".toList, "10.0.0.1".toList, 1000),
         ("c".toList, "10.0.0.3".toList, 3000)]
      = registerAll { peers_ := [] }
        [("a".toList, "10.0.0.1".toList, 1000), ("b".toList, "10.0.0.2".toList, 2000),
         ("c".toList, "10.0.0.3".toList, 3000)] :=
  ⟨matchPeers_pairs_two_smallest.1 (failsAt 0)
      (registerAll { peers_ := [] }
        [("b".toList, "10.0.0.2".toList, 2000), ("a".toList, "10.0.0.1".toList, 1000),
         ("c".toList, "10.0.0.3".toList, 3000)])
      { attempts := [] } (by decide) (by decide),
    matchPeers_pairs_two_smallest.2.1 _ _
      (List.Perm.swap _ _ _) (by decide)⟩

end network

namespace network

open Protocol PeerMap RendezvousServer P2PClient

/-! ## The registration handshake, end to end -/

theorem waitForPeerInfo_timeout (self : P2PClient) (polls : List (Option Str))
    (h : ∀ r ∈ polls.reduceOption, (parse r).1 ≠ .PEER_INFO) :
    waitForPeerInfo self polls
      = .error (.runtime_error "Timeout waiting for peer information") := by
  induction polls with
  | nil => rfl
  | cons p polls ih =>
      cases p with
      | none =>
          rw [List.reduceOption_cons_of_none] at h
          simp only [waitForPeerInfo]
          exact ih h
      | some r =>
          rw [List.reduceOption_cons_of_some] at h
          have hr : (parse r).1 ≠ .PEER_INFO := h r (by simp)
          have ih2 := ih (fun x hx => h x (List.mem_cons_of_mem _ hx))
          simp only [waitForPeerInfo, hr, if_false]
          exact ih2

theorem waitForPeerInfo_peer_info (self : P2PClient) (polls : List (Option Str))
    (ip : Str) (port : Nat) (hip : ':' ∉ ip) (hport : port ≤ 65535)
    (h : polls.reduceOption = [createPeerInfo ip port]) :
    waitForPeerInfo self polls = .ok { self with peer_ip_ := ip, peer_port_ := port } := by
  induction polls with
  | nil => simp at h
  | cons p polls ih =>
      cases p with
      | none =>
          rw [List.reduceOption_cons_of_none] at h
          simp only [waitForPeerInfo]
          exact ih h
      | some r =>
          rw [List.reduceOption_cons_of_some] at h
          simp only [List.cons.injEq] at h
          obtain ⟨hr, _⟩ := h
          subst hr
          have e1 := parse_createPeerInfo ip port
          have e2 : parsePeerInfo (ip ++ ':' :: to_string port) = .ok (ip, port) := by
            rw [parsePeerInfo_append ip _ hip, stoi_to_string port (by omega)]
            simp [castUInt16_of_le port hport]
          simp only [waitForPeerInfo, e1, e2, if_true]

theorem run_two (net : Transport) (self : RendezvousServer) (socket : SocketWrapper)
    (m1 m2 ip1 ip2 : Str) (port1 port2 : Nat) :
    run net self socket [(m1, ip1, port1), (m2, ip2, port2)]
      = handleClient net (handleClient net self socket m1 ip1 port1).1
          (handleClient net self socket m1 ip1 port1).2 m2 ip2 port2 := by
  simp [run]

theorem deliveredTo_two_registers (ipA ipB : Str) (portA portB : Nat)
    (hne : (ipA, portA) ≠ (ipB, portB)) :
    (run allSendsSucceed { peers_ := [] } { attempts := [] }
        [("REGISTER".toList, ipA, portA), ("REGISTER".toList, ipB, portB)]).2.deliveredTo ipA portA
      = ["REGISTER:OK".toList, createPeerInfo ipB portB] ∧
    (run allSendsSucceed { peers_ := [] } { attempts := [] }
        [("REGISTER".toList, ipA, portA), ("REGISTER".toList, ipB, portB)]).2.deliveredTo ipB portB
      = [createPeerInfo ipA portA, "REGISTER:OK".toList] := by
  have hp : parse "REGISTER".toList = (.REGISTER, []) := by decide
  have hid : client_id (parse "REGISTER".toList).2 ipA portA
      ≠ client_id (parse "REGISTER".toList).2 ipB portB := by
    rw [hp]
    intro e
    obtain ⟨a, b⟩ := client_id_default_injective _ _ _ _ e
    exact hne (by rw [a, b])
  obtain ⟨_, h2, _⟩ := two_registers_attempts allSendsSucceed (fun _ _ => rfl) { attempts := [] }
    "REGISTER".toList "REGISTER".toList ipA ipB portA portB (by rw [hp]) (by rw [hp]) hid
  rw [run_two]
  have hAB : ¬ (ipA = ipB ∧ portA = portB) := fun h => hne (by rw [h.1, h.2])
  have hBA : ¬ (ipB = ipA ∧ portB = portA) := fun h => hne (by rw [h.1, h.2])
  rcases h2 with h2 | h2 <;> rw [SocketWrapper.deliveredTo, SocketWrapper.deliveredTo,
    SocketWrapper.delivered, h2] <;>
    simp [registerOkTo, List.filter_cons, hAB, hBA]

/-- C8, evaluated. Two clients at distinct addresses each send a REGISTER without
payload, every send succeeds and every datagram reaches its addressee in the order
sent. The first registrant receives REGISTER:OK and then PEER_INFO, and ends with the
address of the other client. The second registrant is sent PEER_INFO before its
REGISTER:OK, so `registerWithRendezvous` reads the PEER_INFO as its reply, and
`waitForPeerInfo`, whatever the polls, ends in the failure "Timeout waiting for peer
information". -/
theorem second_registrant_times_out (ipA ipB : Str) (portA portB : Nat)
    (hne : (ipA, portA) ≠ (ipB, portB)) (hipB : ':' ∉ ipB) (hportB : portB ≤ 65535)
    (net : Transport) (clientA clientB : P2PClient) (socketA socketB : SocketWrapper)
    (hsendA : net socketA.attempts.length
      { data := "REGISTER".toList, ip := clientA.rendezvous_address_,
        port := clientA.rendezvous_port_ } = true)
    (hsendB : net socketB.attempts.length
      { data := "REGISTER".toList, ip := clientB.rendezvous_address_,
        port := clientB.rendezvous_port_ } = true)
    (pollsA pollsB : List (Option Str))
    (hpollsA : pollsA.reduceOption =
      ((run allSendsSucceed { peers_ := [] } { attempts := [] }
        [("REGISTER".toList, ipA, portA), ("REGISTER".toList, ipB, portB)]).2.deliveredTo
          ipA portA).tail)
    (hpollsB : pollsB.reduceOption <+:
      ((run allSendsSucceed { peers_ := [] } { attempts := [] }
        [("REGISTER".toList, ipA, portA), ("REGISTER".toList, ipB, portB)]).2.deliveredTo
          ipB portB).tail) :
    runUntilPeerInfo net clientA socketA
        ((run allSendsSucceed { peers_ := [] } { attempts := [] }
          [("REGISTER".toList, ipA, portA), ("REGISTER".toList, ipB, portB)]).2.deliveredTo
            ipA portA).head? pollsA
      = .ok { clientA with peer_ip_ := ipB, peer_port_ := portB } ∧
    runUntilPeerInfo net clientB socketB
        ((run allSendsSucceed { peers_ := [] } { attempts := [] }
          [("REGISTER".toList, ipA, portA), ("REGISTER".toList, ipB, portB)]).2.deliveredTo
            ipB portB).head? pollsB
      = .error (.runtime_error "Timeout waiting for peer information") := by
  obtain ⟨hA, hB⟩ := deliveredTo_two_registers ipA ipB portA portB hne
  rw [hA] at hpollsA ⊢
  rw [hB] at hpollsB ⊢
  simp only [List.tail_cons, List.head?_cons] at hpollsA hpollsB ⊢
  have hser : serialize .REGISTER [] = "REGISTER".toList := by decide
  refine ⟨?_, ?_⟩
  · simp only [runUntilPeerInfo, registerWithRendezvous, SocketWrapper.sendto, hser, hsendA]
    exact waitForPeerInfo_peer_info clientA pollsA ipB portB hipB hportB hpollsA
  · simp only [runUntilPeerInfo, registerWithRendezvous, SocketWrapper.sendto, hser, hsendB]
    apply waitForPeerInfo_timeout
    intro r hr
    have hmem : r ∈ ["REGISTER:OK".toList] := hpollsB.subset hr
    simp only [List.mem_singleton] at hmem
    subst hmem
    decide

/-- C8, at the clients 10.0.0.1:1000 and 10.0.0.2:2000, each polling three times. -/
theorem second_registrant_times_out_witness :
    runUntilPeerInfo allSendsSucceed
        { rendezvous_address_ := "10.0.0.9".toList, rendezvous_port_ := 9000, peer_ip_ := [],
          peer_port_ := 0, connected_ := false, running_ := true }
        { attempts := [] } (some "REGISTER:OK".toList)
        [none, some "PEER_INFO:10.0.0.2:2000".toList, none]
      = .ok { rendezvous_address_ := "10.0.0.9".toList, rendezvous_port_ := 9000,
              peer_ip_ := "10.0.0.2".toList, peer_port_ := 2000, connected_ := false,
              running_ := true } ∧
    runUntilPeerInfo allSendsSucceed
        { rendezvous_address_ := "10.0.0.9".toList, rendezvous_port_ := 9000, peer_ip_ := [],
          peer_port_ := 0, connected_ := false, running_ := true }
        { attempts := [] } (some "PEER_INFO:10.0.0.1:1000".toList)
        [none, some "REGISTER:OK".toList, none]
      = .error (.runtime_error "Timeout waiting for peer information") :=
  second_registrant_times_out "10.0.0.1".toList "10.0.0.2".toList 1000 2000 (by decide)
    (by decide) (by decide) allSendsSucceed
    { rendezvous_address_ := "10.0.0.9".toList, rendezvous_port_ := 9000, peer_ip_ := [],
      peer_port_ := 0, connected_ := false, running_ := true }
    { rendezvous_address_ := "10.0.0.9".toList, rendezvous_port_ := 9000, peer_ip_ := [],
      peer_port_ := 0, connected_ := false, running_ := true }
    { attempts := [] } { attempts := [] } rfl rfl
    [none, some "PEER_INFO:10.0.0.2:2000".toList, none]
    [none, some "REGISTER:OK".toList, none] (by decide) (by decide)

end network

namespace network

open Protocol PeerMap RendezvousServer

/-! ## Dispatch of the other commands, and the wire format -/

/-- C11. For an inbound datagram whose decoded command is not REGISTER, `handleClient`
leaves the registry unchanged and makes exactly one `sendto` call, no PEER_INFO among
them: the response to the sender, which is "PONG" when the command is PING and
"ERROR:Unknown command" for every other command, `UNKNOWN` included. -/
theorem handleClient_not_register (net : Transport) (self : RendezvousServer)
    (socket : SocketWrapper) (message ip : Str) (port : Nat)
    (h : (parse message).1 ≠ .REGISTER) :
    handleClient net self socket message ip port
      = (self,
         { attempts := socket.attempts ++
             [({ data := if (parse message).1 = .PING then "PONG".toList
                         else "ERROR:Unknown command".toList,
                 ip := ip, port := port },
               net socket.attempts.length
                 { data := if (parse message).1 = .PING then "PONG".toList
                           else "ERROR:Unknown command".toList,
                   ip := ip, port := port })] }) := by
  have hpong : createPong = "PONG".toList := by decide
  have herr : createError "Unknown command".toList = "ERROR:Unknown command".toList := by
    decide
  unfold handleClient
  cases hp : parse message with
  | mk cmd data =>
      rw [hp] at h
      cases cmd <;> first
        | exact absurd rfl h
        | (simp only [hpong, herr]
           simp [SocketWrapper.sendto])

/-- C11, at a PING while "a" and "b" wait in the registry, and at the unknown text
"FOOBAR". -/
theorem handleClient_not_register_witness :
    handleClient allSendsSucceed
        { peers_ := [("a".toList, { ip := "10.0.0.1".toList, port := 1000, id := "a".toList }),
                     ("b".toList, { ip := "10.0.0.2".toList, port := 2000, id := "b".toList })] }
        { attempts := [] } "PING".toList "10.0.0.3".toList 3000
      = ({ peers_ := [("a".toList, { ip := "10.0.0.1".toList, port := 1000, id := "a".toList }),
                      ("b".toList, { ip := "10.0.0.2".toList, port := 2000, id := "b".toList })] },
         { attempts := [] ++
             [({ data := if (parse "PING".toList).1 = .PING then "PONG".toList
                         else "ERROR:Unknown command".toList,
                 ip := "10.0.0.3".toList, port := 3000 },
               allSendsSucceed 0
                 { data := if (parse "PING".toList).1 = .PING then "PONG".toList
                           else "ERROR:Unknown command".toList,
                   ip := "10.0.0.3".toList, port := 3000 })] }) ∧
    (handleClient allSendsSucceed { peers_ := [] } { attempts := [] } "FOOBAR".toList
        "10.0.0.3".toList 3000).2.attempts
      = [({ data := "ERROR:Unknown command".toList, ip := "10.0.0.3".toList, port := 3000 },
          true)] :=
  ⟨handleClient_not_register allSendsSucceed _ { attempts := [] } "PING".toList
      "10.0.0.3".toList 3000 (by decide),
    by decide⟩

/-- C16. Wire format of the encoder: for every command but `UNKNOWN`, `serialize` gives
the name of the command as enumerated when the payload is empty, and otherwise that
name, a colon and the payload as it is. -/
theorem serialize_wire_format (c : Command) (p : Str) (hc : c ≠ .UNKNOWN) :
    ∃ name, (c, name) ∈ wireNames ∧
      serialize c p = if p = [] then name else name ++ ':' :: p := by
  refine ⟨commandToString c, ?_, ?_⟩
  · cases c <;> first
      | exact absurd rfl hc
      | decide
  · by_cases hp : p = []
    · simp [serialize, hp]
    · simp [serialize, hp]

/-- C16, at MESSAGE with the payload "a:b" and at QUIT without payload. -/
theorem serialize_wire_format_witness :
    (∃ name, (Command.MESSAGE, name) ∈ wireNames ∧
      serialize .MESSAGE "a:b".toList
        = if "a:b".toList = [] then name else name ++ ':' :: "a:b".toList) ∧
    serialize .MESSAGE "a:b".toList = "MESSAGE:a:b".toList ∧
    serialize .QUIT [] = "QUIT".toList :=
  ⟨serialize_wire_format .MESSAGE "a:b".toList (by decide), by decide, by decide⟩

end network

namespace network

open Protocol P2PClient

/-! ## The client: waiting for the peer, sending and receiving -/

theorem find_ne_none_of_mem (c : Char) (s : Str) (h : c ∈ s) : find c s ≠ none := by
  induction s with
  | nil => simp at h
  | cons x xs ih =>
      by_cases hx : x = c
      · simp [find, hx]
      · have hxs : c ∈ xs := by
          rcases List.mem_cons.mp h with e | e
          · exact absurd e.symm hx
          · exact e
        simp [find, hx, ih hxs]

theorem parse_peer_info_message (data : Str) :
    parse ("PEER_INFO".toList ++ ':' :: data) = (.PEER_INFO, data) := by
  rw [parse_append_colon _ _ (by decide)]
  rfl

/-- C12, evaluated. In `waitForPeerInfo` a PEER_INFO whose payload has no colon is
skipped: the `std::runtime_error` of `parsePeerInfo` is caught by the clause meant for
an empty socket, and the wait goes on with the next polls, so that a PEER_INFO received
afterwards makes the traversal proceed. A PEER_INFO whose port segment has no leading
number is not skipped: `std::invalid_argument` leaves the method. At the polls
"PEER_INFO:10.0.0.1", "PEER_INFO:10.0.0.2:2000" the wait ends with the peer
10.0.0.2:2000. -/
theorem waitForPeerInfo_skips_payload_without_colon :
    (∀ (self : P2PClient) (data : Str) (polls : List (Option Str)), ':' ∉ data →
      waitForPeerInfo self (some ("PEER_INFO".toList ++ ':' :: data) :: polls)
        = waitForPeerInfo self polls) ∧
    (∀ (self : P2PClient) (ip seg : Str) (polls : List (Option Str)), ':' ∉ ip →
      ¬ HasLeadingInt seg →
      waitForPeerInfo self (some ("PEER_INFO".toList ++ ':' :: (ip ++ ':' :: seg)) :: polls)
        = .error .invalid_argument) ∧
    waitForPeerInfo
        { rendezvous_address_ := "10.0.0.9".toList, rendezvous_port_ := 9000, peer_ip_ := [],
          peer_port_ := 0, connected_ := false, running_ := true }
        [some "PEER_INFO:10.0.0.1".toList, some "PEER_INFO:10.0.0.2:2000".toList]
      = .ok { rendezvous_address_ := "10.0.0.9".toList, rendezvous_port_ := 9000,
              peer_ip_ := "10.0.0.2".toList, peer_port_ := 2000, connected_ := false,
              running_ := true } := by
  refine ⟨?_, ?_, by decide⟩
  · intro self data polls hdata
    have hpp : parsePeerInfo data = .error (.runtime_error "Invalid peer info format") := by
      simp [parsePeerInfo, find_eq_none_of_not_mem ':' data hdata]
    simp only [waitForPeerInfo, parse_peer_info_message, hpp, if_true]
  · intro self ip seg polls hip hseg
    have hpp : parsePeerInfo (ip ++ ':' :: seg) = .error .invalid_argument := by
      rw [parsePeerInfo_append ip seg hip, stoi_invalid_of_no_leading seg hseg]
    simp only [waitForPeerInfo, parse_peer_info_message, hpp, if_true]

/-- C12, at a PEER_INFO with the payload "10.0.0.1" followed by a REGISTER:OK, and at a
PEER_INFO with the payload "10.0.0.1:notaport". -/
theorem waitForPeerInfo_skips_payload_without_colon_witness :
    waitForPeerInfo
        { rendezvous_address_ := "10.0.0.9".toList, rendezvous_port_ := 9000, peer_ip_ := [],
          peer_port_ := 0, connected_ := false, running_ := true }
        (some ("PEER_INFO".toList ++ ':' :: "10.0.0.1".toList) :: [some "REGISTER:OK".toList])
      = waitForPeerInfo
        { rendezvous_address_ := "10.0.0.9".toList, rendezvous_port_ := 9000, peer_ip_ := [],
          peer_port_ := 0, connected_ := false, running_ := true }
        [some "REGISTER:OK".toList] ∧
    waitForPeerInfo
        { rendezvous_address_ := "10.0.0.9".toList, rendezvous_port_ := 9000, peer_ip_ := [],
          peer_port_ := 0, connected_ := false, running_ := true }
        (some ("PEER_INFO".toList ++ ':' :: ("10.0.0.1".toList ++ ':' :: "notaport".toList))
          :: [some "PEER_INFO:10.0.0.2:2000".toList])
      = .error .invalid_argument :=
  ⟨waitForPeerInfo_skips_payload_without_colon.1 _ "10.0.0.1".toList
      [some "REGISTER:OK".toList] (by decide),
    waitForPeerInfo_skips_payload_without_colon.2.1 _ "10.0.0.1".toList "notaport".toList
      [some "PEER_INFO:10.0.0.2:2000".toList] (by decide)
      (not_hasLeadingInt_of_head 'n' "otaport".toList (by decide) (by decide) (by decide)
        (by decide))⟩

end network

namespace network

open Protocol P2PClient

theorem sendMessagesLine_frame (net : Transport) (self : P2PClient) (socket : SocketWrapper)
    (input frame : Str) (h0 : input ≠ []) (hq : input ≠ "QUIT".toList)
    (hframe : (if input = "PING".toList then serialize .PING []
      else if find ':' input = none ∧ input ≠ "PING".toList then serialize .MESSAGE input
      else input) = frame) :
    sendMessagesLine net self socket input
      = (self, (socket.sendto net frame self.peer_ip_ self.peer_port_).2, .next) := by
  unfold sendMessagesLine
  rw [if_neg h0, if_neg hq]
  simp only []
  rw [hframe]

/-- C13, evaluated. The framing of `sendMessages`, line by line: an empty line sends
nothing and the loop goes on; "PING" sends the frame "PING"; any other line without a
colon is sent as "MESSAGE:" followed by the line; a line with a colon is sent as it is;
in these cases a failed send changes nothing else. "QUIT" sends the frame "QUIT", and
when the send returns `running_` becomes false and the loop ends. When the send of the
QUIT frame throws, the exception leaves `sendMessages` and `running_` is still true, as
at the line "QUIT" on a network whose first send fails. -/
theorem sendMessagesLine_quit_send_fails :
    (∀ (net : Transport) (self : P2PClient) (socket : SocketWrapper),
      sendMessagesLine net self socket [] = (self, socket, .next)) ∧
    (∀ (net : Transport) (self : P2PClient) (socket : SocketWrapper),
      sendMessagesLine net self socket "PING".toList
        = (self, (socket.sendto net "PING".toList self.peer_ip_ self.peer_port_).2, .next)) ∧
    (∀ (net : Transport) (self : P2PClient) (socket : SocketWrapper) (input : Str),
      input ≠ [] → input ≠ "QUIT".toList → input ≠ "PING".toList → ':' ∉ input →
      sendMessagesLine net self socket input
        = (self,
           (socket.sendto net ("MESSAGE".toList ++ ':' :: input) self.peer_ip_
             self.peer_port_).2,
           .next)) ∧
    (∀ (net : Transport) (self : P2PClient) (socket : SocketWrapper) (input : Str),
      ':' ∈ input →
      sendMessagesLine net self socket input
        = (self, (socket.sendto net input self.peer_ip_ self.peer_port_).2, .next)) ∧
    (∀ (net : Transport) (self : P2PClient) (socket : SocketWrapper),
      (sendMessagesLine net self socket "QUIT".toList).2.1
          = (socket.sendto net "QUIT".toList self.peer_ip_ self.peer_port_).2 ∧
        ((socket.sendto net "QUIT".toList self.peer_ip_ self.peer_port_).1 = true →
          (sendMessagesLine net self socket "QUIT".toList).1 = { self with running_ := false } ∧
            (sendMessagesLine net self socket "QUIT".toList).2.2 = .stop) ∧
        ((socket.sendto net "QUIT".toList self.peer_ip_ self.peer_port_).1 = false →
          (sendMessagesLine net self socket "QUIT".toList).1 = self ∧
            (sendMessagesLine net self socket "QUIT".toList).2.2
              = .thrown (.runtime_error "Failed to send data via UDP"))) ∧
    sendMessages (failsAt 0)
        { rendezvous_address_ := "10.0.0.9".toList, rendezvous_port_ := 9000,
          peer_ip_ := "10.0.0.2".toList, peer_port_ := 2000, connected_ := true,
          running_ := true }
        { attempts := [] } ["QUIT".toList]
      = ({ rendezvous_address_ := "10.0.0.9".toList, rendezvous_port_ := 9000,
           peer_ip_ := "10.0.0.2".toList, peer_port_ := 2000, connected_ := true,
           running_ := true },
         { attempts := [({ data := "QUIT".toList, ip := "10.0.0.2".toList, port := 2000 },
                          false)] },
         some (.runtime_error "Failed to send data via UDP")) := by
  refine ⟨?_, ?_, ?_, ?_, ?_, by decide⟩
  · intro net self socket
    simp [sendMessagesLine]
  · intro net self socket
    exact sendMessagesLine_frame net self socket _ _ (by decide) (by decide) (by decide)
  · intro net self socket input h0 hq hp hc
    apply sendMessagesLine_frame net self socket input _ h0 hq
    have hf := find_eq_none_of_not_mem ':' input hc
    rw [if_neg hp, if_pos ⟨hf, hp⟩]
    simp only [serialize]
    rw [if_pos h0]
    rfl
  · intro net self socket input hc
    have h0 : input ≠ [] := fun e => by simp [e] at hc
    have hq : input ≠ "QUIT".toList := fun e => by rw [e] at hc; revert hc; decide
    have hp : input ≠ "PING".toList := fun e => by rw [e] at hc; revert hc; decide
    apply sendMessagesLine_frame net self socket input _ h0 hq
    have hf := find_ne_none_of_mem ':' input hc
    rw [if_neg hp, if_neg (fun h => hf h.1)]
  · intro net self socket
    have hser : serialize .QUIT [] = "QUIT".toList := by decide
    have hne : ("QUIT".toList : Str) ≠ [] := by decide
    unfold sendMessagesLine
    rw [if_neg hne, if_pos rfl, hser]
    cases hs : socket.sendto net "QUIT".toList self.peer_ip_ self.peer_port_ with
    | mk ok socket1 =>
        cases ok <;> simp

/-- C13, at the lines "hello" and "FOO:bar" on a working network. -/
theorem sendMessagesLine_quit_send_fails_witness :
    sendMessagesLine allSendsSucceed
        { rendezvous_address_ := "10.0.0.9".toList, rendezvous_port_ := 9000,
          peer_ip_ := "10.0.0.2".toList, peer_port_ := 2000, connected_ := true,
          running_ := true }
        { attempts := [] } "hello".toList
      = ({ rendezvous_address_ := "10.0.0.9".toList, rendezvous_port_ := 9000,
           peer_ip_ := "10.0.0.2".toList, peer_port_ := 2000, connected_ := true,
           running_ := true },
         (SocketWrapper.sendto allSendsSucceed { attempts := [] }
           ("MESSAGE".toList ++ ':' :: "hello".toList) "10.0.0.2".toList 2000).2,
         .next) ∧
    sendMessagesLine allSendsSucceed
        { rendezvous_address_ := "10.0.0.9".toList, rendezvous_port_ := 9000,
          peer_ip_ := "10.0.0.2".toList, peer_port_ := 2000, connected_ := true,
          running_ := true }
        { attempts := [] } "FOO:bar".toList
      = ({ rendezvous_address_ := "10.0.0.9".toList, rendezvous_port_ := 9000,
           peer_ip_ := "10.0.0.2".toList, peer_port_ := 2000, connected_ := true,
           running_ := true },
         (SocketWrapper.sendto allSendsSucceed { attempts := [] } "FOO:bar".toList
           "10.0.0.2".toList 2000).2,
         .next) :=
  ⟨sendMessagesLine_quit_send_fails.2.2.1 allSendsSucceed _ { attempts := [] } "hello".toList
      (by decide) (by decide) (by decide) (by decide),
    sendMessagesLine_quit_send_fails.2.2.2.1 allSendsSucceed _ { attempts := [] }
      "FOO:bar".toList (by decide)⟩

/-- C14. The receive step, for every datagram: when its sender address differs from the
peer address, the state is unchanged and nothing is sent, whatever the content; when
the sender is the peer, `running_` is set to false exactly when the datagram decodes to
QUIT and nothing else of the state changes, and a `sendto` call is made exactly when it
decodes to PING, of the frame "PONG" addressed to the peer. -/
theorem handleIncomingMessage_step (net : Transport) (self : P2PClient)
    (socket : SocketWrapper) (message sender_ip : Str) (sender_port : Nat) :
    (¬ (sender_ip = self.peer_ip_ ∧ sender_port = self.peer_port_) →
      handleIncomingMessage net self socket message sender_ip sender_port = (self, socket)) ∧
    (sender_ip = self.peer_ip_ ∧ sender_port = self.peer_port_ →
      (handleIncomingMessage net self socket message sender_ip sender_port).1
          = (if (parse message).1 = .QUIT then { self with running_ := false } else self) ∧
      (handleIncomingMessage net self socket message sender_ip sender_port).2
          = (if (parse message).1 = .PING then
              { attempts := socket.attempts ++
                  [({ data := "PONG".toList, ip := self.peer_ip_, port := self.peer_port_ },
                    net socket.attempts.length
                      { data := "PONG".toList, ip := self.peer_ip_,
                        port := self.peer_port_ })] }
            else socket)) := by
  have hpong : createPong = "PONG".toList := by decide
  refine ⟨?_, ?_⟩
  · intro h
    simp only [handleIncomingMessage, if_neg h]
  · intro h
    simp only [handleIncomingMessage, if_pos h]
    cases hc : (parse message).1 <;> simp [hpong, SocketWrapper.sendto]

/-- C14, at a QUIT and a PING from the third party 10.0.0.7:7000, and at a QUIT and a
PING from the peer 10.0.0.2:2000. -/
theorem handleIncomingMessage_step_witness :
    handleIncomingMessage (failsAt 5)
        { rendezvous_address_ := "10.0.0.9".toList, rendezvous_port_ := 9000,
          peer_ip_ := "10.0.0.2".toList, peer_port_ := 2000, connected_ := true,
          running_ := true }
        { attempts := [] } "QUIT".toList "10.0.0.7".toList 7000
      = ({ rendezvous_address_ := "10.0.0.9".toList, rendezvous_port_ := 9000,
           peer_ip_ := "10.0.0.2".toList, peer_port_ := 2000, connected_ := true,
           running_ := true },
         { attempts := [] }) ∧
    handleIncomingMessage (failsAt 5)
        { rendezvous_address_ := "10.0.0.9".toList, rendezvous_port_ := 9000,
          peer_ip_ := "10.0.0.2".toList, peer_port_ := 2000, connected_ := true,
          running_ := true }
        { attempts := [] } "PING".toList "10.0.0.7".toList 7000
      = ({ rendezvous_address_ := "10.0.0.9".toList, rendezvous_port_ := 9000,
           peer_ip_ := "10.0.0.2".toList, peer_port_ := 2000, connected_ := true,
           running_ := true },
         { attempts := [] }) ∧
    (handleIncomingMessage (failsAt 5)
        { rendezvous_address_ := "10.0.0.9".toList, rendezvous_port_ := 9000,
          peer_ip_ := "10.0.0.2".toList, peer_port_ := 2000, connected_ := true,
          running_ := true }
        { attempts := [] } "QUIT".toList "10.0.0.2".toList 2000).1.running_ = false ∧
    (handleIncomingMessage (failsAt 5)
        { rendezvous_address_ := "10.0.0.9".toList, rendezvous_port_ := 9000,
          peer_ip_ := "10.0.0.2".toList, peer_port_ := 2000, connected_ := true,
          running_ := true }
        { attempts := [] } "PING".toList "10.0.0.2".toList 2000).2.attempts
      = [({ data := "PONG".toList, ip := "10.0.0.2".toList, port := 2000 }, true)] :=
  ⟨(handleIncomingMessage_step (failsAt 5) _ { attempts := [] } "QUIT".toList
      "10.0.0.7".toList 7000).1 (by decide),
    (handleIncomingMessage_step (failsAt 5) _ { attempts := [] } "PING".toList
      "10.0.0.7".toList 7000).1 (by decide),
    by
      rw [((handleIncomingMessage_step (failsAt 5) _ { attempts := [] } "QUIT".toList
        "10.0.0.2".toList 2000).2 (by decide)).1]
      decide,
    by
      rw [((handleIncomingMessage_step (failsAt 5) _ { attempts := [] } "PING".toList
        "10.0.0.2".toList 2000).2 (by decide)).2]
      decide⟩

end network

namespace network

open Protocol PeerMap RendezvousServer P2PClient

/-! ## Hole punching -/

theorem sendHolePunchLoop_attempts (net : Transport) (peer_ip : Str) (peer_port : Nat)
    (n : Nat) : ∀ socket : SocketWrapper,
    (sendHolePunchLoop net socket peer_ip peer_port n).attempts.map Prod.fst
      = socket.attempts.map Prod.fst ++ List.replicate n (holePunchTo peer_ip peer_port) := by
  have hser : serialize .HOLE_PUNCH [] = "HOLE_PUNCH".toList := by decide
  induction n with
  | zero => intro socket; simp [sendHolePunchLoop]
  | succ n ih =>
      intro socket
      rw [sendHolePunchLoop, ih, hser]
      simp [SocketWrapper.sendto, holePunchTo, List.replicate_succ]

/-- C15. `sendHolePunchPackets(peer, count)` is total and makes exactly `count` calls
of `sendto` (none for a negative `count`), each of the frame "HOLE_PUNCH" addressed to
the peer, whatever calls fail; and `performHolePunching` makes exactly 10 of them on
its new socket. -/
theorem sendHolePunchPackets_attempts (net : Transport) (peer_ip : Str) (peer_port : Nat) :
    (∀ (socket : SocketWrapper) (count : Int),
      (sendHolePunchPackets net socket peer_ip peer_port count).attempts.map Prod.fst
        = socket.attempts.map Prod.fst ++
            List.replicate count.toNat (holePunchTo peer_ip peer_port)) ∧
    (∀ (socket : SocketWrapper) (count : Int), 0 ≤ count →
      ((sendHolePunchPackets net socket peer_ip peer_port count).attempts.length : Int)
        = socket.attempts.length + count) ∧
    (∀ (self : P2PClient) (polls : List (Option (Str × Str × Nat))),
      (performHolePunching net self peer_ip peer_port polls).2.attempts.map Prod.fst
        = List.replicate 10 (holePunchTo peer_ip peer_port)) := by
  refine ⟨?_, ?_, ?_⟩
  · intro socket count
    exact sendHolePunchLoop_attempts net peer_ip peer_port count.toNat socket
  · intro socket count hcount
    have h := congrArg List.length
      (sendHolePunchLoop_attempts net peer_ip peer_port count.toNat socket)
    simp only [List.length_map, List.length_append, List.length_replicate] at h
    simp only [sendHolePunchPackets, h]
    omega
  · intro self polls
    have h := sendHolePunchLoop_attempts net peer_ip peer_port 10 { attempts := [] }
    simpa [performHolePunching, sendHolePunchPackets] using h

/-- C15, at three packets on a network whose second send fails, and at the ten packets
of `performHolePunching` on a network whose fourth send fails. -/
theorem sendHolePunchPackets_attempts_witness :
    ((sendHolePunchPackets (failsAt 1) { attempts := [] } "10.0.0.2".toList 2000 3).attempts.length
        : Int) = ({ attempts := [] } : SocketWrapper).attempts.length + 3 ∧
    (sendHolePunchPackets (failsAt 1) { attempts := [] } "10.0.0.2".toList 2000 3).attempts
      = [(holePunchTo "10.0.0.2".toList 2000, true), (holePunchTo "10.0.0.2".toList 2000, false),
         (holePunchTo "10.0.0.2".toList 2000, true)] ∧
    (performHolePunching (failsAt 3)
        { rendezvous_address_ := "10.0.0.9".toList, rendezvous_port_ := 9000,
          peer_ip_ := "10.0.0.2".toList, peer_port_ := 2000, connected_ := false,
          running_ := true }
        "10.0.0.2".toList 2000 []).2.attempts.map Prod.fst
      = List.replicate 10 (holePunchTo "10.0.0.2".toList 2000) :=
  ⟨(sendHolePunchPackets_attempts (failsAt 1) "10.0.0.2".toList 2000).2.1
      { attempts := [] } 3 (by decide),
    by decide,
    (sendHolePunchPackets_attempts (failsAt 3) "10.0.0.2".toList 2000).2.2 _ []⟩

/-! ## The size of the registry -/

theorem assign_length_le (key : Str) (value : PeerInfo) (m : PeerMap) :
    (assign key value m).length ≤ m.length + 1 := by
  induction m with
  | nil => simp [assign]
  | cons e rest ih =>
      obtain ⟨k, v⟩ := e
      simp only [assign]
      split
      · simp
      · split
        · simp only [List.length_cons]
          omega
        · simp

theorem handleClient_peers_of_not_register (net : Transport) (self : RendezvousServer)
    (socket : SocketWrapper) (message ip : Str) (port : Nat)
    (h : (parse message).1 ≠ .REGISTER) :
    (handleClient net self socket message ip port).1 = self := by
  unfold handleClient
  cases hp : parse message with
  | mk cmd data =>
      rw [hp] at h
      cases cmd <;> first
        | exact absurd rfl h
        | (simp only []
           split <;> rfl)

theorem handleClient_length_le_one (net : Transport) (hnet : ∀ i d, net i d = true)
    (self : RendezvousServer) (socket : SocketWrapper) (message ip : Str) (port : Nat)
    (h : self.peers_.length ≤ 1) :
    (handleClient net self socket message ip port).1.peers_.length ≤ 1 := by
  by_cases hreg : (parse message).1 = .REGISTER
  · rw [handleClient_register net self socket message ip port hreg]
    have hle : (processRegister self (parse message).2 ip port).2.peers_.length ≤ 2 := by
      have := assign_length_le (client_id (parse message).2 ip port)
        { ip := ip, port := port, id := client_id (parse message).2 ip port } self.peers_
      simp only [processRegister]
      omega
    by_cases h2 : (processRegister self (parse message).2 ip port).2.peers_.length ≥ 2
    · rw [if_pos h2]
      cases hs : (processRegister self (parse message).2 ip port).2 with
      | mk peers =>
          rw [hs] at hle h2
          match peers, hle, h2 with
          | [(k1, p1), (k2, p2)], _, _ =>
              rw [matchPeers_of_all_succeed net hnet]
              simp
    · rw [if_neg h2]
      simp only []
      omega
  · rw [handleClient_peers_of_not_register net self socket message ip port hreg]
    exact h

theorem run_length_le_one (net : Transport) (hnet : ∀ i d, net i d = true)
    (inbound : List (Str × Str × Nat)) :
    ∀ (self : RendezvousServer) (socket : SocketWrapper), self.peers_.length ≤ 1 →
      (run net self socket inbound).1.peers_.length ≤ 1 := by
  induction inbound with
  | nil => intro self socket h; simpa [run] using h
  | cons d rest ih =>
      intro self socket h
      obtain ⟨message, ip, port⟩ := d
      simp only [run]
      exact ih _ _ (handleClient_length_le_one net hnet self socket message ip port h)

/-- C17. From an empty registry and on a network where no send fails, after
`handleClient` has processed any sequence of inbound datagrams the registry holds at
most one registration; hence the next REGISTER brings it to at most two entries, which
is all that `matchPeers` ever sees and clears. -/
theorem registry_size_invariant (net : Transport) (hnet : ∀ i d, net i d = true)
    (socket : SocketWrapper) (inbound : List (Str × Str × Nat)) :
    (run net { peers_ := [] } socket inbound).1.peers_.length ≤ 1 ∧
      ∀ (data ip : Str) (port : Nat),
        (processRegister (run net { peers_ := [] } socket inbound).1 data ip port).2.peers_.length
          ≤ 2 := by
  have h1 := run_length_le_one net hnet inbound { peers_ := [] } socket (by simp)
  refine ⟨h1, ?_⟩
  intro data ip port
  have := assign_length_le (client_id data ip port)
    { ip := ip, port := port, id := client_id data ip port }
    (run net { peers_ := [] } socket inbound).1.peers_
  simp only [processRegister]
  omega

/-- C17, at the datagrams REGISTER:a, PING, REGISTER:b, REGISTER:c, FOOBAR. -/
theorem registry_size_invariant_witness :
    (run allSendsSucceed { peers_ := [] } { attempts := [] }
        [("REGISTER:a".toList, "10.0.0.1".toList, 1000), ("PING".toList, "10.0.0.4".toList, 4000),
         ("REGISTER:b".toList, "10.0.0.2".toList, 2000),
         ("REGISTER:c".toList, "10.0.0.3".toList, 3000),
         ("FOOBAR".toList, "10.0.0.4".toList, 4000)]).1.peers_.length ≤ 1 :=
  (registry_size_invariant allSendsSucceed (fun _ _ => rfl) { attempts := [] }
    [("REGISTER:a".toList, "10.0.0.1".toList, 1000), ("PING".toList, "10.0.0.4".toList, 4000),
     ("REGISTER:b".toList, "10.0.0.2".toList, 2000),
     ("REGISTER:c".toList, "10.0.0.3".toList, 3000),
     ("FOOBAR".toList, "10.0.0.4".toList, 4000)]).1

end network
